import Mathlib

/-!
# os.pipe (src/pipe.c): descriptor lifecycle and I/O semantics

A shallow embedding of `src/pipe.c`.

* The operating system is an arbitrary function `Kernel` from the history of
  system calls issued so far and the next call to that call's result, so a
  statement quantified over every `Kernel` covers every behaviour of the OS.
* `World` is the state outside the Lua values: `errno`, the log of system
  calls issued (each with its return value), and the sizes of the userdata
  blocks allocated with `lua_newuserdata`.
* A C function of the Lua API is a function from its arguments (the values
  above the receiver on the Lua stack) to the values it returns to Lua: the
  values pushed are kept in a list and `results n` takes the top `n`, as the
  host does with the C function's return count.
* A userdata is mutable through its pointer; here a method returns the
  content of its receiver after the call (`Ret.self`).

The host allocator is an arbitrary function `Allocator`: it decides whether
the buffer of `read_lua`, whose size the caller chooses, can be allocated;
when it cannot, `lua_newuserdata` raises a Lua error. Outside the model:
memory exhaustion in the other allocations of the Lua API, none larger than
that buffer (the two `pipe_fd_t` blocks of `new_lua`, the values pushed as
results), and the text produced by `__tostring`.
-/

namespace OsPipe

/-! ## Platform constants and the system-call interface -/

/-- Values of the `<errno.h>` and `<fcntl.h>` constants used by the source.
They come from the platform headers, so every definition takes them as a
parameter. -/
structure Consts where
  EAGAIN : Int
  EWOULDBLOCK : Int
  EINTR : Int
  EINVAL : Int
  O_NONBLOCK : Int
  FD_CLOEXEC : Int
  deriving DecidableEq, Repr

/-- The values of the constants on Linux (x86-64), used for concrete runs. -/
def linux : Consts :=
  ⟨11, 11, 4, 22, 2048, 1⟩

def PIPE_READER_MT : String := "os.pipe.reader"

def PIPE_WRITER_MT : String := "os.pipe.writer"

def DEFAULT_RECVSIZE : Int := 4096

/-- The `fcntl` commands used by the source. -/
inductive FcntlCmd where
  | F_GETFL
  | F_SETFL
  | F_SETFD
  deriving DecidableEq, Repr

/-- A system call as issued by the source, with its arguments. For `write`
the bytes of the buffer handed to the kernel are recorded. -/
inductive Syscall where
  | write (fd : Int) (buf : List UInt8) (len : Nat)
  | read (fd : Int) (len : Int)
  | close (fd : Int)
  | fcntl (fd : Int) (cmd : FcntlCmd) (arg : Int)
  | pipe
  deriving DecidableEq, Repr

/-- What a system call hands back: its return value, the value it stores in
`errno` (if it stores one), the content of the caller's buffer after a
`read`, and the two descriptors stored by `pipe`. -/
structure SysRet where
  rv : Int
  err : Option Int
  buf : List UInt8
  fd0 : Int
  fd1 : Int
  deriving DecidableEq, Repr

/-- One entry of the system-call log: the call and its return value. -/
structure Event where
  call : Syscall
  rv : Int
  deriving DecidableEq, Repr

/-- The operating system: the result of a call, given the log so far. -/
abbrev Kernel := List Event → Syscall → SysRet

/-- The state outside the Lua values: `errno`, the log of system calls issued
and the sizes of the blocks allocated with `lua_newuserdata`, in order. -/
structure World where
  errno : Int
  trace : List Event
  allocs : List Int
  deriving DecidableEq, Repr

/-- Issue one system call: ask the kernel, update `errno` if the call stored
a value there, and append the call to the log. -/
def syscall (os : Kernel) (w : World) (c : Syscall) : SysRet × World :=
  (os w.trace c,
    ⟨(os w.trace c).err.getD w.errno, w.trace ++ [⟨c, (os w.trace c).rv⟩], w.allocs⟩)

/-- The assignment `errno = e`. -/
def set_errno (w : World) (e : Int) : World :=
  ⟨e, w.trace, w.allocs⟩

/-- The host allocator: given the sizes of the blocks allocated so far,
whether a block of the requested size can be allocated. -/
abbrev Allocator := List Int → Int → Bool

/-- The call `lua_newuserdata(L, size)` when it returns: one more block
allocated. -/
def lua_newuserdata (w : World) (size : Int) : World :=
  ⟨w.errno, w.trace, w.allocs ++ [size]⟩

/-- The size of `pipe_fd_t`, a struct of one `int`. -/
def sizeof_pipe_fd_t : Int := 4

/-! ## Lua values -/

/-- The `pipe_fd_t` struct. -/
structure pipe_fd_t where
  fd : Int
  deriving DecidableEq, Repr

/-- The Lua values the module handles. `udata mt p` is a userdata block with
metatable name `mt` (`none`: no metatable set) holding `p` (`none`: not yet
initialised); `rawbuf n` is the `n`-byte scratch userdata of `read_lua`. -/
inductive LuaValue where
  | nil
  | boolean (b : Bool)
  | integer (n : Int)
  | lstring (s : List UInt8)
  | errobj (code : Int) (op : String)
  | udata (mt : Option String) (p : Option pipe_fd_t)
  | rawbuf (size : Int)
  deriving DecidableEq, Repr

/-- How a C function ends: it returns values to Lua, or it raises a Lua error
(an argument check that fails, or a buffer that cannot be allocated), in
both cases before any other effect. -/
inductive Outcome where
  | values (vs : List LuaValue)
  | raise
  deriving DecidableEq, Repr

/-- The result of a method call: outcome, receiver after the call, world
after the call. -/
structure Ret where
  out : Outcome
  self : LuaValue
  w : World
  deriving DecidableEq, Repr

/-- A C function returning `n`: the top `n` values of the stack go to Lua. -/
def results (n : Nat) (stack : List LuaValue) : Outcome :=
  Outcome.values (stack.drop (stack.length - n))

/-- Modelled from the spec: `lua_errno_new` of `lua_errno.h` (not in src/),
the error reporting sink: it pushes one structured error value carrying the
errno code and the operation name it is given. -/
def lua_errno_new (code : Int) (op : String) : LuaValue :=
  LuaValue.errobj code op

/-- The call `luaL_checkudata(L, 1, tname)`: the receiver must be a userdata
whose metatable is the one registered as `tname`. -/
def luaL_checkudata (self : LuaValue) (tname : String) : Option pipe_fd_t :=
  match self with
  | LuaValue.udata (some mt) (some p) => if mt = tname then some p else none
  | _ => none

/-- The call `lauxh_checklstring(L, 2, &len)` of lauxhlib: the argument must
be a string. -/
def lauxh_checklstring (args : List LuaValue) : Option (List UInt8) :=
  match args.head? with
  | some (LuaValue.lstring s) => some s
  | _ => none

/-- The call `lauxh_optinteger(L, 2, def)` of lauxhlib: the default when the
argument is absent or nil, otherwise the argument must be an integer. -/
def lauxh_optinteger (args : List LuaValue) (dflt : Int) : Option Int :=
  match args.head? with
  | none => some dflt
  | some LuaValue.nil => some dflt
  | some (LuaValue.integer n) => some n
  | _ => none

/-- The call `lauxh_optboolean(L, 1, def)` of lauxhlib: the default when the
argument is absent or nil, otherwise the argument must be a boolean. -/
def lauxh_optboolean (args : List LuaValue) (dflt : Int) : Option Int :=
  match args.head? with
  | none => some dflt
  | some LuaValue.nil => some dflt
  | some (LuaValue.boolean b) => some (if b then 1 else 0)
  | _ => none

/-- The function `optboolean(L, 2, def)` of the source: the default when no
argument is on the stack, otherwise the argument must be a boolean. -/
def optboolean (args : List LuaValue) (dflt : Int) : Option Int :=
  match args.head? with
  | none => some dflt
  | some (LuaValue.boolean b) => some (if b then 1 else 0)
  | _ => none

/-! ## The C functions -/

/-- The function `write_lua`. -/
def write_lua (K : Consts) (os : Kernel) (self : LuaValue) (args : List LuaValue)
    (w : World) : Ret :=
  match luaL_checkudata self PIPE_WRITER_MT with
  | none => ⟨Outcome.raise, self, w⟩
  | some p =>
    match lauxh_checklstring args with
    | none => ⟨Outcome.raise, self, w⟩
    | some buf =>
      if buf.length = 0 then
        ⟨results 2 [LuaValue.nil, lua_errno_new (set_errno w K.EINVAL).errno "write"], self,
          set_errno w K.EINVAL⟩
      else
        let s := syscall os w (Syscall.write p.fd buf buf.length)
        if s.1.rv = -1 then
          if s.2.errno = K.EAGAIN ∨ s.2.errno = K.EWOULDBLOCK ∨ s.2.errno = K.EINTR then
            ⟨results 3 [LuaValue.integer 0, LuaValue.nil, LuaValue.boolean true], self, s.2⟩
          else
            ⟨results 2 [LuaValue.nil, lua_errno_new s.2.errno "write"], self, s.2⟩
        else if (((buf.length : Int) % 2 ^ 64) - (s.1.rv % 2 ^ 64)) % 2 ^ 64 ≠ 0 then
          ⟨results 3 [LuaValue.integer s.1.rv, LuaValue.nil, LuaValue.boolean true], self, s.2⟩
        else
          ⟨results 1 [LuaValue.integer s.1.rv], self, s.2⟩

/-- The function `read_lua`. The scratch buffer is a userdata of `len` bytes
pushed on the stack before the `read`: when the host cannot allocate it,
`lua_newuserdata` raises a Lua error and no `read` is issued.
`lua_pushlstring(L, buf, rv)` copies the first `rv` bytes of the buffer (for
a return value below `-1`, which `read` never produces, the C code would
read out of bounds; here it copies nothing). -/
def read_lua (K : Consts) (os : Kernel) (mem : Allocator) (self : LuaValue)
    (args : List LuaValue) (w : World) : Ret :=
  match luaL_checkudata self PIPE_READER_MT with
  | none => ⟨Outcome.raise, self, w⟩
  | some p =>
    match lauxh_optinteger args DEFAULT_RECVSIZE with
    | none => ⟨Outcome.raise, self, w⟩
    | some len =>
      if len ≤ 0 then
        ⟨results 2 [LuaValue.nil, lua_errno_new (set_errno w K.EINVAL).errno "read_lua"], self,
          set_errno w K.EINVAL⟩
      else if mem w.allocs len = false then
        ⟨Outcome.raise, self, w⟩
      else
        let s := syscall os (lua_newuserdata w len) (Syscall.read p.fd len)
        if s.1.rv = 0 then
          ⟨results 0 [LuaValue.rawbuf len], self, s.2⟩
        else if s.1.rv = -1 then
          if s.2.errno = K.EAGAIN ∨ s.2.errno = K.EWOULDBLOCK ∨ s.2.errno = K.EINTR then
            ⟨results 3 [LuaValue.rawbuf len, LuaValue.nil, LuaValue.nil, LuaValue.boolean true],
              self, s.2⟩
          else
            ⟨results 2 [LuaValue.rawbuf len, LuaValue.nil, lua_errno_new s.2.errno "read"],
              self, s.2⟩
        else
          ⟨results 1 [LuaValue.rawbuf len, LuaValue.lstring (s.1.buf.take s.1.rv.toNat)],
            self, s.2⟩

/-- The function `close_lua`. -/
def close_lua (os : Kernel) (self : LuaValue) (tname : String) (w : World) : Ret :=
  match luaL_checkudata self tname with
  | none => ⟨Outcome.raise, self, w⟩
  | some p =>
    if p.fd = -1 then
      ⟨results 1 [LuaValue.boolean true], self, w⟩
    else
      let s := syscall os w (Syscall.close p.fd)
      if s.1.rv = 0 then
        ⟨results 1 [LuaValue.boolean true], LuaValue.udata (some tname) (some ⟨-1⟩), s.2⟩
      else
        ⟨results 2 [LuaValue.boolean false, lua_errno_new s.2.errno "close"],
          LuaValue.udata (some tname) (some ⟨-1⟩), s.2⟩

def close_writer_lua (os : Kernel) (self : LuaValue) (w : World) : Ret :=
  close_lua os self PIPE_WRITER_MT w

def close_reader_lua (os : Kernel) (self : LuaValue) (w : World) : Ret :=
  close_lua os self PIPE_READER_MT w

/-- The function `fd_lua`. -/
def fd_lua (self : LuaValue) (tname : String) (w : World) : Ret :=
  match luaL_checkudata self tname with
  | none => ⟨Outcome.raise, self, w⟩
  | some p => ⟨results 1 [LuaValue.integer p.fd], self, w⟩

def fd_writer_lua (self : LuaValue) (w : World) : Ret :=
  fd_lua self PIPE_WRITER_MT w

def fd_reader_lua (self : LuaValue) (w : World) : Ret :=
  fd_lua self PIPE_READER_MT w

/-- The function `nonblock_lua`. `enabled` is `-1` when no argument is given.
Both failure branches of the C code fall through to the same error tail. -/
def nonblock_lua (K : Consts) (os : Kernel) (self : LuaValue) (tname : String)
    (args : List LuaValue) (w : World) : Ret :=
  match luaL_checkudata self tname with
  | none => ⟨Outcome.raise, self, w⟩
  | some p =>
    match optboolean args (-1) with
    | none => ⟨Outcome.raise, self, w⟩
    | some enabled =>
      let s := syscall os w (Syscall.fcntl p.fd FcntlCmd.F_GETFL 0)
      let flg := s.1.rv
      if flg ≠ -1 then
        let newflg :=
          if enabled = 1 then Int.lor flg K.O_NONBLOCK
          else if enabled = 0 then Int.land flg (Int.not K.O_NONBLOCK)
          else flg
        if newflg = flg then
          ⟨results 1 [LuaValue.boolean (decide (Int.land flg K.O_NONBLOCK ≠ 0))], self, s.2⟩
        else
          let s2 := syscall os s.2 (Syscall.fcntl p.fd FcntlCmd.F_SETFL newflg)
          if s2.1.rv = 0 then
            ⟨results 1 [LuaValue.boolean (decide (Int.land flg K.O_NONBLOCK ≠ 0))], self, s2.2⟩
          else
            ⟨results 2 [LuaValue.nil, lua_errno_new s2.2.errno "fcntl"], self, s2.2⟩
      else
        ⟨results 2 [LuaValue.nil, lua_errno_new s.2.errno "fcntl"], self, s.2⟩

def nonblock_writer_lua (K : Consts) (os : Kernel) (self : LuaValue) (args : List LuaValue)
    (w : World) : Ret :=
  nonblock_lua K os self PIPE_WRITER_MT args w

def nonblock_reader_lua (K : Consts) (os : Kernel) (self : LuaValue) (args : List LuaValue)
    (w : World) : Ret :=
  nonblock_lua K os self PIPE_READER_MT args w

/-- The function `gc_lua`: `lua_touserdata` performs no type check, and the
result of `close` is ignored. -/
def gc_lua (os : Kernel) (self : LuaValue) (w : World) : Ret :=
  match self with
  | LuaValue.udata _ (some p) =>
    if p.fd ≠ -1 then ⟨results 0 [], self, (syscall os w (Syscall.close p.fd)).2⟩
    else ⟨results 0 [], self, w⟩
  | _ => ⟨results 0 [], self, w⟩

/-- The function `set_nonblock`: both `F_GETFL` calls are made first, then
the chain of `||` stops at the first operand that is non-zero. -/
def set_nonblock (K : Consts) (os : Kernel) (fds0 fds1 : Int) (w : World) : Int × World :=
  let g0 := syscall os w (Syscall.fcntl fds0 FcntlCmd.F_GETFL 0)
  let g1 := syscall os g0.2 (Syscall.fcntl fds1 FcntlCmd.F_GETFL 0)
  if g0.1.rv = -1 then (1, g1.2)
  else if g1.1.rv = -1 then (1, g1.2)
  else
    let s0 := syscall os g1.2 (Syscall.fcntl fds0 FcntlCmd.F_SETFL (Int.lor g0.1.rv K.O_NONBLOCK))
    if s0.1.rv ≠ 0 then (1, s0.2)
    else
      let s1 := syscall os s0.2
        (Syscall.fcntl fds1 FcntlCmd.F_SETFL (Int.lor g1.1.rv K.O_NONBLOCK))
      if s1.1.rv ≠ 0 then (1, s1.2) else (0, s1.2)

/-- The function `set_cloexec`. -/
def set_cloexec (K : Consts) (os : Kernel) (fds0 fds1 : Int) (w : World) : Int × World :=
  let s0 := syscall os w (Syscall.fcntl fds0 FcntlCmd.F_SETFD K.FD_CLOEXEC)
  if s0.1.rv ≠ 0 then (1, s0.2)
  else
    let s1 := syscall os s0.2 (Syscall.fcntl fds1 FcntlCmd.F_SETFD K.FD_CLOEXEC)
    if s1.1.rv ≠ 0 then (1, s1.2) else (0, s1.2)

/-- The tail of `new_lua` after the `if (pipe(fds) == 0)` block: two nils and
the error built from the current `errno`. The two userdata allocated at the
start stay on the stack beneath them. -/
def new_lua_error (w : World) : Outcome × World :=
  (results 3 [LuaValue.udata none none, LuaValue.udata none none, LuaValue.nil, LuaValue.nil,
    lua_errno_new w.errno "pipe"], w)

/-- The cleanup of `new_lua`: `close(fds[0]); close(fds[1]);`, then the error
tail. -/
def new_lua_cleanup (os : Kernel) (fds0 fds1 : Int) (w : World) : Outcome × World :=
  new_lua_error (syscall os (syscall os w (Syscall.close fds0)).2 (Syscall.close fds1)).2

/-- The success branch of `new_lua`: the two userdata receive their
descriptor and their metatable and are returned. -/
def new_lua_pair (fds0 fds1 : Int) (w : World) : Outcome × World :=
  (results 2 [LuaValue.udata (some PIPE_READER_MT) (some ⟨fds0⟩),
    LuaValue.udata (some PIPE_WRITER_MT) (some ⟨fds1⟩)], w)

/-- The function `new_lua`. -/
def new_lua (K : Consts) (os : Kernel) (args : List LuaValue) (w : World) : Outcome × World :=
  match lauxh_optboolean args 0 with
  | none => (Outcome.raise, w)
  | some nonblock =>
    let sp := syscall os (lua_newuserdata (lua_newuserdata w sizeof_pipe_fd_t) sizeof_pipe_fd_t)
      Syscall.pipe
    if sp.1.rv = 0 then
      let c := set_cloexec K os sp.1.fd0 sp.1.fd1 sp.2
      if c.1 = 0 then
        if nonblock = 0 then new_lua_pair sp.1.fd0 sp.1.fd1 c.2
        else
          let n := set_nonblock K os sp.1.fd0 sp.1.fd1 c.2
          if n.1 = 0 then new_lua_pair sp.1.fd0 sp.1.fd1 n.2
          else new_lua_cleanup os sp.1.fd0 sp.1.fd1 n.2
      else new_lua_cleanup os sp.1.fd0 sp.1.fd1 c.2
    else new_lua_error sp.2

/-! ## Method dispatch and the life of an endpoint -/

/-- A method call on an endpoint, with the arguments after the receiver. -/
inductive Call where
  | nonblock (args : List LuaValue)
  | fd
  | close
  | read (args : List LuaValue)
  | write (args : List LuaValue)
  deriving DecidableEq, Repr

/-- The call `self:name(...)`, resolved through the `__index` table that
`luaopen_os_pipe` attaches to the metatable of `self`: `reader_methods` has
`nonblock`, `fd`, `close`, `read`; `writer_methods` has `nonblock`, `fd`,
`close`, `write`. A name that is not in the table is nil, and calling it
raises a Lua error. -/
def invoke (K : Consts) (os : Kernel) (mem : Allocator) (self : LuaValue) (c : Call)
    (w : World) : Ret :=
  match self with
  | LuaValue.udata (some mt) _ =>
    if mt = PIPE_READER_MT then
      match c with
      | Call.nonblock args => nonblock_reader_lua K os self args w
      | Call.fd => fd_reader_lua self w
      | Call.close => close_reader_lua os self w
      | Call.read args => read_lua K os mem self args w
      | Call.write _ => ⟨Outcome.raise, self, w⟩
    else if mt = PIPE_WRITER_MT then
      match c with
      | Call.nonblock args => nonblock_writer_lua K os self args w
      | Call.fd => fd_writer_lua self w
      | Call.close => close_writer_lua os self w
      | Call.read _ => ⟨Outcome.raise, self, w⟩
      | Call.write args => write_lua K os self args w
    else ⟨Outcome.raise, self, w⟩
  | _ => ⟨Outcome.raise, self, w⟩

/-- A sequence of method calls on one endpoint, in order: the endpoint and
the world after the last call. -/
def run (K : Consts) (os : Kernel) (mem : Allocator) :
    LuaValue → List Call → World → LuaValue × World
  | self, [], w => (self, w)
  | self, c :: cs, w =>
    run K os mem (invoke K os mem self c w).self cs (invoke K os mem self c w).w

/-- The life of an endpoint: a sequence of method calls, then the `__gc`
metamethod `gc_lua`, once. The world at the end. -/
def lifecycle (K : Consts) (os : Kernel) (mem : Allocator) (self : LuaValue) (cs : List Call)
    (w : World) : World :=
  (gc_lua os (run K os mem self cs w).1 (run K os mem self cs w).2).w

/-- Successive `read` method calls on one reader, one per requested length:
the outcomes in order and the world after the last. -/
def reads (K : Consts) (os : Kernel) (mem : Allocator) (self : LuaValue) :
    List Int → World → List Outcome × World
  | [], w => ([], w)
  | len :: lens, w =>
    ((read_lua K os mem self [LuaValue.integer len] w).out ::
        (reads K os mem (read_lua K os mem self [LuaValue.integer len] w).self lens
          (read_lua K os mem self [LuaValue.integer len] w).w).1,
      (reads K os mem (read_lua K os mem self [LuaValue.integer len] w).self lens
        (read_lua K os mem self [LuaValue.integer len] w).w).2)

/-- The consecutive pieces of `q` cut by the requested lengths. -/
def pieces : List UInt8 → List Int → List (List UInt8)
  | _, [] => []
  | q, len :: lens => q.take len.toNat :: pieces (q.drop len.toNat) lens

/-- The kernel serves the successive reads of the given lengths on `fd` from
the queue `q`, in order: each read asks for a positive length while bytes
remain, returns the smaller of the length asked and the number of bytes
queued, and stores that many bytes from the front of the queue. -/
def delivers (os : Kernel) (fd : Int) : List Event → List UInt8 → List Int → Prop
  | _, _, [] => True
  | t, q, len :: lens =>
    0 < len ∧ q ≠ [] ∧
    (os t (Syscall.read fd len)).rv = ((min len.toNat q.length : Nat) : Int) ∧
    (os t (Syscall.read fd len)).buf.take (min len.toNat q.length) = q.take len.toNat ∧
    delivers os fd (t ++ [⟨Syscall.read fd len, (os t (Syscall.read fd len)).rv⟩])
      (q.drop len.toNat) lens

/-- The host can allocate the successive buffers of the given lengths, one
per read, after the blocks already allocated. -/
def allocates (mem : Allocator) : List Int → List Int → Prop
  | _, [] => True
  | allocs, len :: lens => mem allocs len = true ∧ allocates mem (allocs ++ [len]) lens

/-! ## Observations -/

/-- The descriptors closed according to a log, in order. -/
def closes (t : List Event) : List Int :=
  t.filterMap (fun ev =>
    match ev.call with
    | Syscall.close fd => some fd
    | _ => none)

/-- The values a caller sees when it binds `n` variables to the results of a
call: Lua drops the extra values and fills the missing ones with nil. -/
def adjust (n : Nat) (vs : List LuaValue) : List LuaValue :=
  (vs ++ List.replicate n LuaValue.nil).take n

/-! ## Concrete runs -/

/-- A writer endpoint on descriptor 4. -/
def writer4 : LuaValue :=
  LuaValue.udata (some PIPE_WRITER_MT) (some ⟨4⟩)

/-- A reader endpoint on descriptor 3. -/
def reader3 : LuaValue :=
  LuaValue.udata (some PIPE_READER_MT) (some ⟨3⟩)

/-- An initial world: `errno` clear, nothing issued, nothing allocated. -/
def world0 : World :=
  ⟨0, [], []⟩

/-- A host that can allocate every block of at most 2^30 bytes and no larger
one. -/
def hostMem : Allocator :=
  fun _ size => decide (size ≤ 2 ^ 30)

/-- A kernel whose `write` accepts two bytes and whose other calls fail with
`EBADF` (9). -/
def kernelShortWrite : Kernel :=
  fun _ c =>
    match c with
    | Syscall.write _ _ _ => ⟨2, none, [], 0, 0⟩
    | _ => ⟨-1, some 9, [], 0, 0⟩

/-- A kernel whose `read` stores the bytes 7 and 8 in the buffer (the rest of
the four-byte buffer reads 0) and returns 2. -/
def kernelShortRead : Kernel :=
  fun _ c =>
    match c with
    | Syscall.read _ _ => ⟨2, none, [7, 8, 0, 0], 0, 0⟩
    | _ => ⟨-1, some 9, [], 0, 0⟩

/-- The flag word last stored successfully with `F_SETFL` on `fd` according to
the log, 0 (blocking) if there is none. -/
def storedFlags (fd : Int) (t : List Event) : Int :=
  t.foldl (fun acc ev =>
    match ev.call with
    | Syscall.fcntl f FcntlCmd.F_SETFL a => if f = fd ∧ ev.rv = 0 then a else acc
    | _ => acc) 0

/-- A kernel on which every call succeeds: `pipe` hands out descriptors 3 and
4, `F_GETFL` reports the flag word last stored with `F_SETFL`, `write` takes
everything, `read` reports end of stream. -/
def kernelOk : Kernel :=
  fun t c =>
    match c with
    | Syscall.pipe => ⟨0, none, [], 3, 4⟩
    | Syscall.fcntl fd FcntlCmd.F_GETFL _ => ⟨storedFlags fd t, none, [], 0, 0⟩
    | Syscall.write _ _ len => ⟨len, none, [], 0, 0⟩
    | _ => ⟨0, none, [], 0, 0⟩

/-- A kernel on which a non-blocking pipe cannot be set up: `pipe` hands out
descriptors 3 and 4, `F_SETFD` and `F_GETFL` succeed, `F_SETFL` fails with
EINVAL (22), and `close` is interrupted: it fails with EINTR (4). -/
def kernelCleanupFails : Kernel :=
  fun _ c =>
    match c with
    | Syscall.pipe => ⟨0, none, [], 3, 4⟩
    | Syscall.fcntl _ FcntlCmd.F_SETFL _ => ⟨-1, some 22, [], 0, 0⟩
    | Syscall.close _ => ⟨-1, some 4, [], 0, 0⟩
    | _ => ⟨0, none, [], 0, 0⟩

/-- The bytes queued in the pipe according to the log: a `write` appends the
bytes the kernel took, a `read` removes the bytes it delivered. -/
def queued (t : List Event) : List UInt8 :=
  t.foldl (fun q ev =>
    match ev.call with
    | Syscall.write _ buf _ => q ++ buf.take ev.rv.toNat
    | Syscall.read _ _ => q.drop ev.rv.toNat
    | _ => q) []

/-- A kernel with one blocking pipe of 65536 bytes (descriptors 3 and 4). A
`write` takes what fits; when not everything fits the call is interrupted by
a signal after it filled the pipe and returns the count taken, and on a full
pipe it fails with EINTR (4). A `read` delivers the bytes queued, at most
the length asked (the rest of the buffer reads 0); on an empty pipe it is
interrupted and fails with EINTR. -/
def kernelPipe : Kernel :=
  fun t c =>
    match c with
    | Syscall.pipe => ⟨0, none, [], 3, 4⟩
    | Syscall.write _ _ len =>
      if (queued t).length < 65536 then
        ⟨((min len (65536 - (queued t).length) : Nat) : Int), none, [], 0, 0⟩
      else ⟨-1, some 4, [], 0, 0⟩
    | Syscall.read _ len =>
      if queued t = [] then ⟨-1, some 4, [], 0, 0⟩
      else
        ⟨((min len.toNat (queued t).length : Nat) : Int), none,
          (queued t).take len.toNat ++ List.replicate (len.toNat - (queued t).length) 0, 0, 0⟩
    | _ => ⟨0, none, [], 0, 0⟩

/-! ## write_lua -/

/-- C1: for non-empty data `d` (of a length that fits `size_t`) on a writer,
`write_lua` issues exactly one system call, the `write` of `d` with its
length on the endpoint's descriptor, and with `rv` the return value and `e`
the value of `errno` after it: `rv = -1` with `e` one of EAGAIN, EWOULDBLOCK,
EINTR returns `(0, nil, true)`; `rv = -1` with another `e` returns
`(nil, error(e, "write"))`; `0 <= rv < len` returns `(rv, nil, true)`;
`rv = len` returns the single value `len`. -/
theorem write_lua_outcomes (K : Consts) (os : Kernel) (p : pipe_fd_t) (d : List UInt8)
    (w : World) (hne : d ≠ []) (hlen : (d.length : Int) < 2 ^ 64) :
    let self := LuaValue.udata (some PIPE_WRITER_MT) (some p)
    let r := os w.trace (Syscall.write p.fd d d.length)
    let e := r.err.getD w.errno
    let res := write_lua K os self [LuaValue.lstring d] w
    res.w.trace = w.trace ++ [⟨Syscall.write p.fd d d.length, r.rv⟩] ∧
    res.w.errno = e ∧ res.w.allocs = w.allocs ∧ res.self = self ∧
    (r.rv = -1 → (e = K.EAGAIN ∨ e = K.EWOULDBLOCK ∨ e = K.EINTR) →
      res.out = Outcome.values [LuaValue.integer 0, LuaValue.nil, LuaValue.boolean true]) ∧
    (r.rv = -1 → ¬ (e = K.EAGAIN ∨ e = K.EWOULDBLOCK ∨ e = K.EINTR) →
      res.out = Outcome.values [LuaValue.nil, LuaValue.errobj e "write"]) ∧
    (0 ≤ r.rv → r.rv < d.length →
      res.out = Outcome.values [LuaValue.integer r.rv, LuaValue.nil, LuaValue.boolean true]) ∧
    (r.rv = d.length → res.out = Outcome.values [LuaValue.integer d.length]) := by
  intro self r e res
  have hl : d.length ≠ 0 := by
    intro h
    exact hne (List.length_eq_zero.mp h)
  have hpos : (0 : Int) < d.length := by
    have : 0 < d.length := Nat.pos_of_ne_zero hl
    exact_mod_cast this
  have hunf : res = write_lua K os (LuaValue.udata (some PIPE_WRITER_MT) (some p))
      [LuaValue.lstring d] w := rfl
  simp only [write_lua, luaL_checkudata, lauxh_checklstring, List.head?, if_true, hl,
    if_false, syscall] at hunf
  refine ⟨?_, ?_, ?_, ?_, ?_, ?_, ?_, ?_⟩
  · rw [hunf]; split_ifs <;> rfl
  · rw [hunf]; split_ifs <;> rfl
  · rw [hunf]; split_ifs <;> rfl
  · rw [hunf]; split_ifs <;> rfl
  · intro h1 h2
    rw [hunf, if_pos h1, if_pos h2]
    rfl
  · intro h1 h2
    rw [hunf, if_pos h1, if_neg h2]
    rfl
  · intro h0 h1
    have hne1 : ¬ (os w.trace (Syscall.write p.fd d d.length)).rv = -1 := by
      intro h; change r.rv = -1 at h; omega
    have hdiff : (((d.length : Int) % 2 ^ 64) - (r.rv % 2 ^ 64)) % 2 ^ 64 ≠ 0 := by
      rw [Int.emod_eq_of_lt (le_of_lt hpos) hlen,
        Int.emod_eq_of_lt h0 (lt_trans h1 hlen),
        Int.emod_eq_of_lt (by omega) (by omega)]
      omega
    rw [hunf, if_neg hne1, if_pos hdiff]
    rfl
  · intro h1
    have hne1 : ¬ (os w.trace (Syscall.write p.fd d d.length)).rv = -1 := by
      intro h; change r.rv = -1 at h; omega
    have hdiff : ¬ (((d.length : Int) % 2 ^ 64) -
        ((os w.trace (Syscall.write p.fd d d.length)).rv % 2 ^ 64)) % 2 ^ 64 ≠ 0 := by
      change ¬ (((d.length : Int) % 2 ^ 64) - (r.rv % 2 ^ 64)) % 2 ^ 64 ≠ 0
      rw [h1]
      simp
    rw [hunf, if_neg hne1, if_neg hdiff]
    change Outcome.values [LuaValue.integer r.rv] = _
    rw [h1]

/-- Witness for C1: three bytes offered, the kernel takes two: the call
returns `(2, nil, true)` after one `write`. -/
theorem write_lua_outcomes_witness :
    (write_lua linux kernelShortWrite writer4 [LuaValue.lstring [104, 105, 33]] world0).out =
      Outcome.values [LuaValue.integer 2, LuaValue.nil, LuaValue.boolean true] ∧
    (write_lua linux kernelShortWrite writer4 [LuaValue.lstring [104, 105, 33]] world0).w.trace =
      [⟨Syscall.write 4 [104, 105, 33] 3, 2⟩] :=
  ⟨(write_lua_outcomes linux kernelShortWrite ⟨4⟩ [104, 105, 33] world0 (by decide)
      (by decide)).2.2.2.2.2.2.1 (by decide) (by decide),
   (write_lua_outcomes linux kernelShortWrite ⟨4⟩ [104, 105, 33] world0 (by decide)
      (by decide)).1⟩

/-! ## Argument validation -/

/-- C7: whatever the endpoint holds (a live descriptor or `-1`) and whatever
the kernel would answer, `write_lua` with an empty string and `read_lua`
with a length `n <= 0` return `(nil, error)` with code EINVAL, issue no
system call and allocate no buffer. -/
theorem invalid_argument_before_syscall (K : Consts) (os : Kernel) (mem : Allocator)
    (p : pipe_fd_t) (n : Int)
    (w : World) (hn : n ≤ 0) :
    ((∃ op, (write_lua K os (LuaValue.udata (some PIPE_WRITER_MT) (some p))
        [LuaValue.lstring []] w).out = Outcome.values [LuaValue.nil, LuaValue.errobj K.EINVAL op]) ∧
      (write_lua K os (LuaValue.udata (some PIPE_WRITER_MT) (some p))
        [LuaValue.lstring []] w).w.trace = w.trace ∧
      (write_lua K os (LuaValue.udata (some PIPE_WRITER_MT) (some p))
        [LuaValue.lstring []] w).w.allocs = w.allocs) ∧
    ((∃ op, (read_lua K os mem (LuaValue.udata (some PIPE_READER_MT) (some p))
        [LuaValue.integer n] w).out = Outcome.values [LuaValue.nil, LuaValue.errobj K.EINVAL op]) ∧
      (read_lua K os mem (LuaValue.udata (some PIPE_READER_MT) (some p))
        [LuaValue.integer n] w).w.trace = w.trace ∧
      (read_lua K os mem (LuaValue.udata (some PIPE_READER_MT) (some p))
        [LuaValue.integer n] w).w.allocs = w.allocs) := by
  have hw : write_lua K os (LuaValue.udata (some PIPE_WRITER_MT) (some p))
      [LuaValue.lstring []] w =
      ⟨Outcome.values [LuaValue.nil, LuaValue.errobj K.EINVAL "write"],
        LuaValue.udata (some PIPE_WRITER_MT) (some p), set_errno w K.EINVAL⟩ := by
    simp [write_lua, luaL_checkudata, lauxh_checklstring, results, lua_errno_new, set_errno]
  have hr : read_lua K os mem (LuaValue.udata (some PIPE_READER_MT) (some p))
      [LuaValue.integer n] w =
      ⟨Outcome.values [LuaValue.nil, LuaValue.errobj K.EINVAL "read_lua"],
        LuaValue.udata (some PIPE_READER_MT) (some p), set_errno w K.EINVAL⟩ := by
    simp [read_lua, luaL_checkudata, lauxh_optinteger, hn, results, lua_errno_new, set_errno]
  rw [hw, hr]
  exact ⟨⟨⟨_, rfl⟩, rfl, rfl⟩, ⟨_, rfl⟩, rfl, rfl⟩

/-- Witness for C7: a closed writer and a reader asked for `-5` bytes, on a
kernel that would accept a write. -/
theorem invalid_argument_before_syscall_witness :
    (write_lua linux kernelShortWrite (LuaValue.udata (some PIPE_WRITER_MT) (some ⟨-1⟩))
        [LuaValue.lstring []] world0).w.trace = [] ∧
    (read_lua linux kernelShortWrite hostMem (LuaValue.udata (some PIPE_READER_MT) (some ⟨-1⟩))
        [LuaValue.integer (-5)] world0).w.allocs = [] :=
  ⟨(invalid_argument_before_syscall linux kernelShortWrite hostMem ⟨-1⟩ (-5) world0 (by decide)).1.2.1,
   (invalid_argument_before_syscall linux kernelShortWrite hostMem ⟨-1⟩ (-5) world0 (by decide)).2.2.2⟩

/-- C10 (the code departs from it): a `read` asked for zero bytes is rejected
with an error whose operation name is `"read_lua"`, which is none of
`"pipe"`, `"read"`, `"write"`, `"fcntl"`, `"close"`; the sibling rejection in
`write_lua` carries `"write"`. -/
theorem read_lua_rejection_op_name (K : Consts) (os : Kernel) (mem : Allocator) (p : pipe_fd_t)
    (w : World) :
    (read_lua K os mem (LuaValue.udata (some PIPE_READER_MT) (some p)) [LuaValue.integer 0] w).out =
      Outcome.values [LuaValue.nil, LuaValue.errobj K.EINVAL "read_lua"] ∧
    "read_lua" ∉ ["pipe", "read", "write", "fcntl", "close"] ∧
    (write_lua K os (LuaValue.udata (some PIPE_WRITER_MT) (some p)) [LuaValue.lstring []] w).out =
      Outcome.values [LuaValue.nil, LuaValue.errobj K.EINVAL "write"] := by
  refine ⟨?_, by decide, ?_⟩
  · simp [read_lua, luaL_checkudata, lauxh_optinteger, results, lua_errno_new, set_errno]
  · simp [write_lua, luaL_checkudata, lauxh_checklstring, results, lua_errno_new, set_errno]

/-! ## close_lua -/

/-- C3: `close_lua` on an endpoint holding `p`. Afterwards the endpoint holds
`-1`, whatever the kernel answered. If `p.fd` was not `-1`, exactly one
system call is issued, `close(p.fd)`: a zero return gives `true`, any other
`(false, error(errno, "close"))`. If `p.fd` was `-1`, the call returns `true`
and the world is untouched. A second `close_lua` on the result returns
`true` and leaves endpoint and world as they are. -/
theorem close_lua_idempotent (os : Kernel) (tname : String) (p : pipe_fd_t) (w : World) :
    let self := LuaValue.udata (some tname) (some p)
    let r := os w.trace (Syscall.close p.fd)
    let res := close_lua os self tname w
    luaL_checkudata res.self tname = some ⟨-1⟩ ∧
    (p.fd ≠ -1 →
      res.w.trace = w.trace ++ [⟨Syscall.close p.fd, r.rv⟩] ∧
      res.w.errno = r.err.getD w.errno ∧
      (r.rv = 0 → res.out = Outcome.values [LuaValue.boolean true]) ∧
      (r.rv ≠ 0 → res.out = Outcome.values
        [LuaValue.boolean false, LuaValue.errobj (r.err.getD w.errno) "close"])) ∧
    (p.fd = -1 → res.out = Outcome.values [LuaValue.boolean true] ∧ res.w = w) ∧
    close_lua os res.self tname res.w = ⟨Outcome.values [LuaValue.boolean true], res.self, res.w⟩ := by
  intro self r res
  have hunf : res = close_lua os (LuaValue.udata (some tname) (some p)) tname w := rfl
  simp only [close_lua, luaL_checkudata, if_true, syscall] at hunf
  by_cases hfd : p.fd = -1
  · rw [if_pos hfd] at hunf
    have hp : p = ⟨-1⟩ := by cases p; simp_all
    subst hp
    rw [hunf]
    refine ⟨by simp [luaL_checkudata], fun h => absurd rfl h, fun _ => ⟨rfl, rfl⟩, ?_⟩
    simp [close_lua, luaL_checkudata, results]
  · rw [if_neg hfd] at hunf
    by_cases hrv : (os w.trace (Syscall.close p.fd)).rv = 0
    · rw [if_pos hrv] at hunf
      rw [hunf]
      refine ⟨by simp [luaL_checkudata], fun _ => ⟨rfl, rfl, fun _ => rfl, fun h => absurd hrv h⟩,
        fun h => absurd h hfd, ?_⟩
      simp [close_lua, luaL_checkudata, results]
    · rw [if_neg hrv] at hunf
      rw [hunf]
      refine ⟨by simp [luaL_checkudata], fun _ => ⟨rfl, rfl, fun h => absurd h hrv, fun _ => rfl⟩,
        fun h => absurd h hfd, ?_⟩
      simp [close_lua, luaL_checkudata, results]

/-! ## read_lua -/

/-- C2: for a requested length `len > 0` on a reader. When the host cannot
allocate the buffer of `len` bytes, `read_lua` raises a Lua error: no system
call is issued and nothing changes. When it can, `read_lua` allocates that
one buffer and issues exactly one system call, `read` of `len` bytes on the
endpoint's descriptor. With `rv` its return value and `e` the value of
`errno` after it: `rv = 0` returns no value at all; `rv = -1` with `e` one
of EAGAIN, EWOULDBLOCK, EINTR returns `(nil, nil, true)`; `rv = -1` with
another `e` returns `(nil, error(e, "read"))`; `rv = n > 0` returns the
first `n` bytes of the buffer, a string of length `n` when the buffer has
the `len` bytes requested and `n <= len`. As seen by a caller binding three
variables the four outcomes are pairwise different. Without an argument the
length is 4096. -/
theorem read_lua_outcomes (K : Consts) (os : Kernel) (mem : Allocator) (p : pipe_fd_t)
    (len : Int) (w : World) (hlen : 0 < len) :
    let self := LuaValue.udata (some PIPE_READER_MT) (some p)
    let r := os w.trace (Syscall.read p.fd len)
    let e := r.err.getD w.errno
    let res := read_lua K os mem self [LuaValue.integer len] w
    (mem w.allocs len = false → res = ⟨Outcome.raise, self, w⟩) ∧
    (mem w.allocs len = true →
      res.w.trace = w.trace ++ [⟨Syscall.read p.fd len, r.rv⟩] ∧
      res.w.allocs = w.allocs ++ [len] ∧ res.w.errno = e ∧ res.self = self ∧
      (r.rv = 0 → res.out = Outcome.values []) ∧
      (r.rv = -1 → (e = K.EAGAIN ∨ e = K.EWOULDBLOCK ∨ e = K.EINTR) →
        res.out = Outcome.values [LuaValue.nil, LuaValue.nil, LuaValue.boolean true]) ∧
      (r.rv = -1 → ¬ (e = K.EAGAIN ∨ e = K.EWOULDBLOCK ∨ e = K.EINTR) →
        res.out = Outcome.values [LuaValue.nil, LuaValue.errobj e "read"]) ∧
      (0 < r.rv →
        res.out = Outcome.values [LuaValue.lstring (r.buf.take r.rv.toNat)] ∧
        (r.buf.length = len.toNat → r.rv ≤ len →
          ((r.buf.take r.rv.toNat).length : Int) = r.rv))) ∧
    (∀ (c : Int) (s : List UInt8),
      adjust 3 [] ≠ adjust 3 [LuaValue.nil, LuaValue.nil, LuaValue.boolean true] ∧
      adjust 3 [] ≠ adjust 3 [LuaValue.nil, LuaValue.errobj c "read"] ∧
      adjust 3 [] ≠ adjust 3 [LuaValue.lstring s] ∧
      adjust 3 [LuaValue.nil, LuaValue.nil, LuaValue.boolean true] ≠
        adjust 3 [LuaValue.nil, LuaValue.errobj c "read"] ∧
      adjust 3 [LuaValue.nil, LuaValue.nil, LuaValue.boolean true] ≠
        adjust 3 [LuaValue.lstring s] ∧
      adjust 3 [LuaValue.nil, LuaValue.errobj c "read"] ≠ adjust 3 [LuaValue.lstring s]) ∧
    read_lua K os mem self [] w = read_lua K os mem self [LuaValue.integer 4096] w := by
  intro self r e res
  have hnl : ¬ len ≤ 0 := not_le.mpr hlen
  have hunf : res = read_lua K os mem (LuaValue.udata (some PIPE_READER_MT) (some p))
      [LuaValue.integer len] w := rfl
  simp only [read_lua, luaL_checkudata, lauxh_optinteger, List.head?, if_true, hnl,
    if_false, syscall, lua_newuserdata] at hunf
  refine ⟨fun hm => ?_, fun hm => ?_, ?_, ?_⟩
  · rw [hunf, if_pos hm]
  · have hm1 : ¬ mem w.allocs len = false := by simp [hm]
    rw [if_neg hm1] at hunf
    refine ⟨?_, ?_, ?_, ?_, ?_, ?_, ?_, ?_⟩
    · rw [hunf]; split_ifs <;> rfl
    · rw [hunf]; split_ifs <;> rfl
    · rw [hunf]; split_ifs <;> rfl
    · rw [hunf]; split_ifs <;> rfl
    · intro h0
      rw [hunf, if_pos h0]
      rfl
    · intro h1 h2
      have h0 : ¬ (os w.trace (Syscall.read p.fd len)).rv = 0 := by
        intro h; change r.rv = 0 at h; omega
      rw [hunf, if_neg h0, if_pos h1, if_pos h2]
      rfl
    · intro h1 h2
      have h0 : ¬ (os w.trace (Syscall.read p.fd len)).rv = 0 := by
        intro h; change r.rv = 0 at h; omega
      rw [hunf, if_neg h0, if_pos h1, if_neg h2]
      rfl
    · intro hp
      have h0 : ¬ (os w.trace (Syscall.read p.fd len)).rv = 0 := by
        intro h; change r.rv = 0 at h; omega
      have h1 : ¬ (os w.trace (Syscall.read p.fd len)).rv = -1 := by
        intro h; change r.rv = -1 at h; omega
      refine ⟨?_, ?_⟩
      · rw [hunf, if_neg h0, if_neg h1]
        rfl
      · intro hb hle
        rw [List.length_take, hb]
        omega
  · intro c s
    simp [adjust]
  · simp [read_lua, lauxh_optinteger, DEFAULT_RECVSIZE]

/-- Witness for C2: four bytes requested, the kernel delivers two: the call
returns exactly those two bytes after one `read`. A request for 2^63 - 1
bytes, which the host cannot allocate, raises and issues nothing. -/
theorem read_lua_outcomes_witness :
    (read_lua linux kernelShortRead hostMem reader3 [LuaValue.integer 4] world0).out =
      Outcome.values [LuaValue.lstring [7, 8]] ∧
    (read_lua linux kernelShortRead hostMem reader3 [LuaValue.integer 4] world0).w.trace =
      [⟨Syscall.read 3 4, 2⟩] ∧
    read_lua linux kernelShortRead hostMem reader3 [LuaValue.integer 9223372036854775807]
      world0 = ⟨Outcome.raise, reader3, world0⟩ :=
  ⟨(((read_lua_outcomes linux kernelShortRead hostMem ⟨3⟩ 4 world0 (by decide)).2.1
      (by decide)).2.2.2.2.2.2.2 (by decide)).1,
   ((read_lua_outcomes linux kernelShortRead hostMem ⟨3⟩ 4 world0 (by decide)).2.1
      (by decide)).1,
   (read_lua_outcomes linux kernelShortRead hostMem ⟨3⟩ 9223372036854775807 world0
      (by decide)).1 (by decide)⟩

/-! ## nonblock_lua -/

/-- Two integers with the same bits are equal. -/
theorem int_eq_of_testBit_eq (a b : Int) (h : ∀ k, a.testBit k = b.testBit k) : a = b := by
  have hfalse : ∀ m k : Nat, Nat.testBit m (m + k) = false := fun m k =>
    Nat.testBit_eq_false_of_lt (lt_of_lt_of_le (Nat.lt_two_pow m)
      (Nat.pow_le_pow_right (by decide) (Nat.le_add_right m k)))
  cases a with
  | ofNat m =>
    cases b with
    | ofNat n =>
      congr 1
      exact Nat.eq_of_testBit_eq h
    | negSucc n =>
      exfalso
      have h1 := h (m + n)
      simp only [Int.testBit] at h1
      rw [hfalse m n, Nat.add_comm, hfalse n m] at h1
      simp at h1
  | negSucc m =>
    cases b with
    | ofNat n =>
      exfalso
      have h1 := h (m + n)
      simp only [Int.testBit] at h1
      rw [hfalse m n, Nat.add_comm, hfalse n m] at h1
      simp at h1
    | negSucc n =>
      congr 1
      apply Nat.eq_of_testBit_eq
      intro k
      have h1 := h k
      simp only [Int.testBit] at h1
      simpa using h1

/-- Or-ing the same bits in twice changes nothing. -/
theorem int_lor_lor_self (a b : Int) : Int.lor (Int.lor a b) b = Int.lor a b := by
  apply int_eq_of_testBit_eq
  intro k
  simp only [Int.testBit_lor]
  cases a.testBit k <;> cases b.testBit k <;> rfl

/-- Bits that were or-ed in are all set. -/
theorem int_land_lor_self (a b : Int) : Int.land (Int.lor a b) b = b := by
  apply int_eq_of_testBit_eq
  intro k
  simp only [Int.testBit_lor, Int.testBit_land]
  cases a.testBit k <;> cases b.testBit k <;> rfl

/-- C6: `nonblock_lua` with `desired` absent, `true` or `false`, on an
endpoint whose `F_GETFL` returns `flg`. The computed flags are `flg` when
absent, `flg | O_NONBLOCK` for `true`, `flg & ~O_NONBLOCK` for `false`. When
`flg` is not `-1`: if the computed flags equal `flg` the only system call is
the `F_GETFL` and the result is the boolean "`flg` has O_NONBLOCK"; if they
differ one `F_SETFL` with the computed flags follows, and when it returns 0
the result is the same boolean. With `desired` absent no `F_SETFL` is ever
issued. Consequently, on a blocking endpoint (O_NONBLOCK a non-zero
constant), when the calls succeed and the second `F_GETFL` reports the flag
word the first call stored, `nonblock(true)` twice returns `false` then
`true` and the three system calls issued are `F_GETFL`, `F_SETFL`,
`F_GETFL`. -/
theorem nonblock_lua_previous_state (K : Consts) (os : Kernel) (tname : String) (p : pipe_fd_t)
    (desired : Option Bool) (w : World) :
    let self := LuaValue.udata (some tname) (some p)
    let args := (desired.map LuaValue.boolean).toList
    let get := Syscall.fcntl p.fd FcntlCmd.F_GETFL 0
    let flg := (os w.trace get).rv
    let newflg :=
      match desired with
      | none => flg
      | some true => Int.lor flg K.O_NONBLOCK
      | some false => Int.land flg (Int.not K.O_NONBLOCK)
    let t1 := w.trace ++ [⟨get, flg⟩]
    let set := Syscall.fcntl p.fd FcntlCmd.F_SETFL newflg
    let res := nonblock_lua K os self tname args w
    (flg ≠ -1 → newflg = flg →
      res.out = Outcome.values [LuaValue.boolean (decide (Int.land flg K.O_NONBLOCK ≠ 0))] ∧
      res.w.trace = t1) ∧
    (flg ≠ -1 → newflg ≠ flg →
      res.w.trace = t1 ++ [⟨set, (os t1 set).rv⟩] ∧
      ((os t1 set).rv = 0 →
        res.out = Outcome.values [LuaValue.boolean (decide (Int.land flg K.O_NONBLOCK ≠ 0))])) ∧
    (desired = none → res.w.trace = t1) ∧
    res.self = self ∧
    (desired = some true → flg ≠ -1 → Int.land flg K.O_NONBLOCK = 0 → K.O_NONBLOCK ≠ 0 →
      (os t1 set).rv = 0 →
      (os (t1 ++ [⟨set, 0⟩]) get).rv = Int.lor flg K.O_NONBLOCK →
      Int.lor flg K.O_NONBLOCK ≠ -1 →
      res.out = Outcome.values [LuaValue.boolean false] ∧
      (nonblock_lua K os res.self tname args res.w).out =
        Outcome.values [LuaValue.boolean true] ∧
      (nonblock_lua K os res.self tname args res.w).w.trace =
        w.trace ++ [⟨get, flg⟩, ⟨set, 0⟩, ⟨get, Int.lor flg K.O_NONBLOCK⟩]) := by
  intro self args get flg newflg t1 set res
  have hunf : res = nonblock_lua K os (LuaValue.udata (some tname) (some p)) tname
      (desired.map LuaValue.boolean).toList w := rfl
  have hnew : (if (if desired = some true then (1 : Int) else if desired = some false then 0
        else -1) = 1 then Int.lor flg K.O_NONBLOCK
      else if (if desired = some true then (1 : Int) else if desired = some false then 0
        else -1) = 0 then Int.land flg (Int.not K.O_NONBLOCK) else flg) = newflg := by
    rcases desired with _ | _ | _ <;> simp [newflg]
  have hopt : optboolean (desired.map LuaValue.boolean).toList (-1) =
      some (if desired = some true then (1 : Int) else if desired = some false then 0
        else -1) := by
    rcases desired with _ | _ | _ <;> simp [optboolean]
  simp only [nonblock_lua, luaL_checkudata, if_true, hopt, syscall] at hunf
  rw [hnew] at hunf
  have hres1 : res.self = LuaValue.udata (some tname) (some p) := by
    rw [hunf]; split_ifs <;> rfl
  have hcase1 : flg ≠ -1 → newflg = flg →
      res.out = Outcome.values [LuaValue.boolean (decide (Int.land flg K.O_NONBLOCK ≠ 0))] ∧
      res.w = ⟨(os w.trace get).err.getD w.errno, t1, w.allocs⟩ := by
    intro h1 h2
    rw [hunf, if_pos h1, if_pos h2]
    exact ⟨rfl, rfl⟩
  have hcase2 : flg ≠ -1 → newflg ≠ flg →
      res.w = ⟨(os t1 set).err.getD ((os w.trace get).err.getD w.errno),
        t1 ++ [⟨set, (os t1 set).rv⟩], w.allocs⟩ ∧
      ((os t1 set).rv = 0 →
        res.out = Outcome.values [LuaValue.boolean (decide (Int.land flg K.O_NONBLOCK ≠ 0))]) := by
    intro h1 h2
    rw [hunf, if_pos h1, if_neg h2]
    by_cases h3 : (os t1 set).rv = 0
    · rw [if_pos h3]
      exact ⟨rfl, fun _ => rfl⟩
    · rw [if_neg h3]
      exact ⟨rfl, fun h => absurd h h3⟩
  refine ⟨fun h1 h2 => ⟨(hcase1 h1 h2).1, by rw [(hcase1 h1 h2).2]⟩,
    fun h1 h2 => ⟨by rw [(hcase2 h1 h2).1], (hcase2 h1 h2).2⟩, ?_, hres1, ?_⟩
  · intro hd
    have hnf : newflg = flg := by simp [newflg, hd]
    by_cases h1 : flg ≠ -1
    · rw [(hcase1 h1 hnf).2]
    · rw [hunf, if_neg h1]
  · intro hd h1 hblk hO hset hget2 hne
    have hnf : newflg = Int.lor flg K.O_NONBLOCK := by simp [newflg, hd]
    have hdiff : newflg ≠ flg := by
      intro h
      apply hO
      have h2 := int_land_lor_self flg K.O_NONBLOCK
      rw [← hnf, h, hblk] at h2
      exact h2.symm
    have hw := (hcase2 h1 hdiff).1
    have ho := (hcase2 h1 hdiff).2 hset
    rw [hset] at hw
    have hfalse : decide (Int.land flg K.O_NONBLOCK ≠ 0) = false := by simp [hblk]
    rw [hfalse] at ho
    refine ⟨ho, ?_⟩
    have hargs : args = [LuaValue.boolean true] := by simp [args, hd]
    rw [hres1, hw, hargs]
    have hget2x : (os (w.trace ++ [⟨get, flg⟩] ++ [⟨set, 0⟩]) get).rv =
        Int.lor flg K.O_NONBLOCK := hget2
    have hland : Int.land (Int.lor flg K.O_NONBLOCK) K.O_NONBLOCK ≠ 0 := by
      rw [int_land_lor_self]; exact hO
    simp only [nonblock_lua, luaL_checkudata, if_true, optboolean,
      List.head?, syscall, hget2x, ne_eq, hne, not_false_eq_true, int_lor_lor_self, results,
      hland, decide_True, List.append_assoc, List.cons_append, List.nil_append]
    simp [t1, get]

/-- Witness for C6: on a kernel that keeps the flag word, `nonblock(true)`
twice on a blocking reader returns `false` then `true` with one `F_SETFL`. -/
theorem nonblock_lua_previous_state_witness :
    (nonblock_lua linux kernelOk reader3 PIPE_READER_MT [LuaValue.boolean true] world0).out =
      Outcome.values [LuaValue.boolean false] ∧
    (nonblock_lua linux kernelOk
      (nonblock_lua linux kernelOk reader3 PIPE_READER_MT [LuaValue.boolean true] world0).self
      PIPE_READER_MT [LuaValue.boolean true]
      (nonblock_lua linux kernelOk reader3 PIPE_READER_MT [LuaValue.boolean true] world0).w).out =
      Outcome.values [LuaValue.boolean true] ∧
    (nonblock_lua linux kernelOk
      (nonblock_lua linux kernelOk reader3 PIPE_READER_MT [LuaValue.boolean true] world0).self
      PIPE_READER_MT [LuaValue.boolean true]
      (nonblock_lua linux kernelOk reader3 PIPE_READER_MT [LuaValue.boolean true] world0).w).w.trace =
      [⟨Syscall.fcntl 3 FcntlCmd.F_GETFL 0, 0⟩, ⟨Syscall.fcntl 3 FcntlCmd.F_SETFL 2048, 0⟩,
        ⟨Syscall.fcntl 3 FcntlCmd.F_GETFL 0, 2048⟩] :=
  (nonblock_lua_previous_state linux kernelOk PIPE_READER_MT ⟨3⟩ (some true) world0).2.2.2.2
    rfl (by decide) (by decide) (by decide) (by decide) (by decide) (by decide)

/-! ## new_lua -/

/-- The descriptors closed in a log made of two parts. -/
theorem closes_append (t u : List Event) : closes (t ++ u) = closes t ++ closes u := by
  simp [closes, List.filterMap_append]

/-- The function `set_cloexec` returns 0 exactly when both `F_SETFD` calls
return 0; it issues one or two `F_SETFD` calls and no `close`. -/
theorem set_cloexec_spec (K : Consts) (os : Kernel) (a b : Int) (w : World) :
    ((set_cloexec K os a b w).1 = 0 ↔
      (os w.trace (Syscall.fcntl a FcntlCmd.F_SETFD K.FD_CLOEXEC)).rv = 0 ∧
      (os (w.trace ++ [⟨Syscall.fcntl a FcntlCmd.F_SETFD K.FD_CLOEXEC,
          (os w.trace (Syscall.fcntl a FcntlCmd.F_SETFD K.FD_CLOEXEC)).rv⟩])
        (Syscall.fcntl b FcntlCmd.F_SETFD K.FD_CLOEXEC)).rv = 0) ∧
    ((set_cloexec K os a b w).1 = 0 →
      (set_cloexec K os a b w).2.trace = w.trace ++
        [⟨Syscall.fcntl a FcntlCmd.F_SETFD K.FD_CLOEXEC,
          (os w.trace (Syscall.fcntl a FcntlCmd.F_SETFD K.FD_CLOEXEC)).rv⟩] ++
        [⟨Syscall.fcntl b FcntlCmd.F_SETFD K.FD_CLOEXEC,
          (os (w.trace ++ [⟨Syscall.fcntl a FcntlCmd.F_SETFD K.FD_CLOEXEC,
            (os w.trace (Syscall.fcntl a FcntlCmd.F_SETFD K.FD_CLOEXEC)).rv⟩])
          (Syscall.fcntl b FcntlCmd.F_SETFD K.FD_CLOEXEC)).rv⟩]) ∧
    closes (set_cloexec K os a b w).2.trace = closes w.trace := by
  simp only [set_cloexec, syscall]
  split_ifs with h0 h1
  · exact ⟨⟨fun h => by simp at h, fun hP => absurd hP.1 h0⟩, fun h => by simp at h,
      by simp [closes_append, closes]⟩
  · exact ⟨⟨fun h => by simp at h, fun hP => absurd hP.2 h1⟩, fun h => by simp at h,
      by simp [closes_append, closes]⟩
  · exact ⟨⟨fun _ => ⟨not_not.mp h0, not_not.mp h1⟩, fun _ => rfl⟩, fun _ => rfl,
      by simp [closes_append, closes]⟩

/-- The function `set_nonblock` returns 0 exactly when both `F_GETFL` calls
return a flag word other than `-1` and both `F_SETFL` calls, each with its
flag word or-ed with O_NONBLOCK, return 0; it issues no `close`. -/
theorem set_nonblock_spec (K : Consts) (os : Kernel) (a b : Int) (w : World) :
    ((set_nonblock K os a b w).1 = 0 ↔
      (os w.trace (Syscall.fcntl a FcntlCmd.F_GETFL 0)).rv ≠ -1 ∧
      (os (w.trace ++ [⟨Syscall.fcntl a FcntlCmd.F_GETFL 0,
          (os w.trace (Syscall.fcntl a FcntlCmd.F_GETFL 0)).rv⟩])
        (Syscall.fcntl b FcntlCmd.F_GETFL 0)).rv ≠ -1 ∧
      (os (w.trace ++ [⟨Syscall.fcntl a FcntlCmd.F_GETFL 0,
          (os w.trace (Syscall.fcntl a FcntlCmd.F_GETFL 0)).rv⟩] ++
          [⟨Syscall.fcntl b FcntlCmd.F_GETFL 0,
            (os (w.trace ++ [⟨Syscall.fcntl a FcntlCmd.F_GETFL 0,
              (os w.trace (Syscall.fcntl a FcntlCmd.F_GETFL 0)).rv⟩])
            (Syscall.fcntl b FcntlCmd.F_GETFL 0)).rv⟩])
        (Syscall.fcntl a FcntlCmd.F_SETFL
          (Int.lor (os w.trace (Syscall.fcntl a FcntlCmd.F_GETFL 0)).rv K.O_NONBLOCK))).rv = 0 ∧
      (os (w.trace ++ [⟨Syscall.fcntl a FcntlCmd.F_GETFL 0,
          (os w.trace (Syscall.fcntl a FcntlCmd.F_GETFL 0)).rv⟩] ++
          [⟨Syscall.fcntl b FcntlCmd.F_GETFL 0,
            (os (w.trace ++ [⟨Syscall.fcntl a FcntlCmd.F_GETFL 0,
              (os w.trace (Syscall.fcntl a FcntlCmd.F_GETFL 0)).rv⟩])
            (Syscall.fcntl b FcntlCmd.F_GETFL 0)).rv⟩] ++
          [⟨Syscall.fcntl a FcntlCmd.F_SETFL
            (Int.lor (os w.trace (Syscall.fcntl a FcntlCmd.F_GETFL 0)).rv K.O_NONBLOCK),
            (os (w.trace ++ [⟨Syscall.fcntl a FcntlCmd.F_GETFL 0,
              (os w.trace (Syscall.fcntl a FcntlCmd.F_GETFL 0)).rv⟩] ++
              [⟨Syscall.fcntl b FcntlCmd.F_GETFL 0,
                (os (w.trace ++ [⟨Syscall.fcntl a FcntlCmd.F_GETFL 0,
                  (os w.trace (Syscall.fcntl a FcntlCmd.F_GETFL 0)).rv⟩])
                (Syscall.fcntl b FcntlCmd.F_GETFL 0)).rv⟩])
            (Syscall.fcntl a FcntlCmd.F_SETFL
              (Int.lor (os w.trace (Syscall.fcntl a FcntlCmd.F_GETFL 0)).rv K.O_NONBLOCK))).rv⟩])
        (Syscall.fcntl b FcntlCmd.F_SETFL
          (Int.lor (os (w.trace ++ [⟨Syscall.fcntl a FcntlCmd.F_GETFL 0,
              (os w.trace (Syscall.fcntl a FcntlCmd.F_GETFL 0)).rv⟩])
            (Syscall.fcntl b FcntlCmd.F_GETFL 0)).rv K.O_NONBLOCK))).rv = 0) ∧
    ((set_nonblock K os a b w).1 = 0 →
      (set_nonblock K os a b w).2.trace = w.trace ++ [⟨Syscall.fcntl a FcntlCmd.F_GETFL 0,
          (os w.trace (Syscall.fcntl a FcntlCmd.F_GETFL 0)).rv⟩] ++
          [⟨Syscall.fcntl b FcntlCmd.F_GETFL 0,
            (os (w.trace ++ [⟨Syscall.fcntl a FcntlCmd.F_GETFL 0,
              (os w.trace (Syscall.fcntl a FcntlCmd.F_GETFL 0)).rv⟩])
            (Syscall.fcntl b FcntlCmd.F_GETFL 0)).rv⟩] ++
          [⟨Syscall.fcntl a FcntlCmd.F_SETFL
            (Int.lor (os w.trace (Syscall.fcntl a FcntlCmd.F_GETFL 0)).rv K.O_NONBLOCK), 0⟩] ++
          [⟨Syscall.fcntl b FcntlCmd.F_SETFL
            (Int.lor (os (w.trace ++ [⟨Syscall.fcntl a FcntlCmd.F_GETFL 0,
                (os w.trace (Syscall.fcntl a FcntlCmd.F_GETFL 0)).rv⟩])
              (Syscall.fcntl b FcntlCmd.F_GETFL 0)).rv K.O_NONBLOCK), 0⟩]) ∧
    closes (set_nonblock K os a b w).2.trace = closes w.trace := by
  simp only [set_nonblock, syscall]
  split_ifs with h0 h1 h2 h3
  · exact ⟨⟨fun h => by simp at h, fun hP => absurd h0 hP.1⟩, fun h => by simp at h,
      by simp [closes_append, closes]⟩
  · exact ⟨⟨fun h => by simp at h, fun hP => absurd h1 hP.2.1⟩, fun h => by simp at h,
      by simp [closes_append, closes]⟩
  · exact ⟨⟨fun h => by simp at h, fun hP => absurd hP.2.2.1 h2⟩, fun h => by simp at h,
      by simp [closes_append, closes]⟩
  · exact ⟨⟨fun h => by simp at h, fun hP => absurd hP.2.2.2 h3⟩, fun h => by simp at h,
      by simp [closes_append, closes]⟩
  · refine ⟨⟨fun _ => ⟨h0, h1, not_not.mp h2, not_not.mp h3⟩, fun _ => rfl⟩, fun _ => ?_,
      by simp [closes_append, closes]⟩
    rw [not_not.mp h3, not_not.mp h2]

/-- A system call other than `close` leaves the list of closed descriptors
as it was. -/
theorem closes_syscall (os : Kernel) (w : World) (c : Syscall)
    (hc : ∀ fd, c ≠ Syscall.close fd) :
    closes (syscall os w c).2.trace = closes w.trace := by
  cases c with
  | close fd => exact absurd rfl (hc fd)
  | _ => simp [syscall, closes_append, closes]

/-- When `new_lua` returns a pair, it is the reader on the first descriptor
stored by `pipe` and the writer on the second, and nothing was closed. -/
theorem new_lua_pair_inv (K : Consts) (os : Kernel) (args : List LuaValue) (w : World)
    (r wr : LuaValue) (h : (new_lua K os args w).1 = Outcome.values [r, wr]) :
    r = LuaValue.udata (some PIPE_READER_MT) (some ⟨(os w.trace Syscall.pipe).fd0⟩) ∧
    wr = LuaValue.udata (some PIPE_WRITER_MT) (some ⟨(os w.trace Syscall.pipe).fd1⟩) ∧
    closes (new_lua K os args w).2.trace = closes w.trace := by
  have hp : closes (syscall os (lua_newuserdata (lua_newuserdata w sizeof_pipe_fd_t)
      sizeof_pipe_fd_t) Syscall.pipe).2.trace = closes w.trace :=
    closes_syscall _ _ _ (by intro fd h; cases h)
  have hpair : ∀ (a b : Int) (w1 : World), (new_lua_pair a b w1).1 = Outcome.values [r, wr] →
      r = LuaValue.udata (some PIPE_READER_MT) (some ⟨a⟩) ∧
      wr = LuaValue.udata (some PIPE_WRITER_MT) (some ⟨b⟩) := by
    intro a b w1 h1
    simp only [new_lua_pair, results, List.length, Nat.sub_self, List.drop,
      Outcome.values.injEq, List.cons.injEq, and_true] at h1
    exact ⟨h1.1.symm, h1.2.symm⟩
  have hclean : ∀ (a b : Int) (w1 : World),
      (new_lua_cleanup os a b w1).1 ≠ Outcome.values [r, wr] := by
    intro a b w1 h1
    simp [new_lua_cleanup, new_lua_error, results] at h1
  have herr : ∀ w1 : World, (new_lua_error w1).1 ≠ Outcome.values [r, wr] := by
    intro w1 h1
    simp [new_lua_error, results] at h1
  unfold new_lua at h ⊢
  split at h
  · cases h
  · rename_i nonblock hopt
    simp only [hopt] at h ⊢
    split_ifs at h ⊢ with h1 h2 h3 h4
    · exact ⟨(hpair _ _ _ h).1, (hpair _ _ _ h).2,
        ((set_cloexec_spec K os _ _ _).2.2).trans hp⟩
    · exact ⟨(hpair _ _ _ h).1, (hpair _ _ _ h).2,
        ((set_nonblock_spec K os _ _ _).2.2).trans (((set_cloexec_spec K os _ _ _).2.2).trans hp)⟩
    · exact absurd h (hclean _ _ _)
    · exact absurd h (hclean _ _ _)
    · exact absurd h (herr _)

/-- The two ways `new_lua` ends once `pipe` has returned 0: with every
set-up call successful the pair is returned and nothing is closed; otherwise
both descriptors are closed last and the error triple is returned. -/
theorem new_lua_cases (K : Consts) (os : Kernel) (nb : Option Bool) (w : World)
    (hpipe : (os w.trace Syscall.pipe).rv = 0) :
    let a := (os w.trace Syscall.pipe).fd0
    let b := (os w.trace Syscall.pipe).fd1
    let t1 := w.trace ++ [⟨Syscall.pipe, 0⟩]
    let c0 := (os t1 (Syscall.fcntl a FcntlCmd.F_SETFD K.FD_CLOEXEC)).rv
    let t2 := t1 ++ [⟨Syscall.fcntl a FcntlCmd.F_SETFD K.FD_CLOEXEC, c0⟩]
    let c1 := (os t2 (Syscall.fcntl b FcntlCmd.F_SETFD K.FD_CLOEXEC)).rv
    let t3 := t2 ++ [⟨Syscall.fcntl b FcntlCmd.F_SETFD K.FD_CLOEXEC, c1⟩]
    let g0 := (os t3 (Syscall.fcntl a FcntlCmd.F_GETFL 0)).rv
    let t4 := t3 ++ [⟨Syscall.fcntl a FcntlCmd.F_GETFL 0, g0⟩]
    let g1 := (os t4 (Syscall.fcntl b FcntlCmd.F_GETFL 0)).rv
    let t5 := t4 ++ [⟨Syscall.fcntl b FcntlCmd.F_GETFL 0, g1⟩]
    let s0 := (os t5 (Syscall.fcntl a FcntlCmd.F_SETFL (Int.lor g0 K.O_NONBLOCK))).rv
    let t6 := t5 ++ [⟨Syscall.fcntl a FcntlCmd.F_SETFL (Int.lor g0 K.O_NONBLOCK), s0⟩]
    let s1 := (os t6 (Syscall.fcntl b FcntlCmd.F_SETFL (Int.lor g1 K.O_NONBLOCK))).rv
    let t7 := t6 ++ [⟨Syscall.fcntl b FcntlCmd.F_SETFL (Int.lor g1 K.O_NONBLOCK), s1⟩]
    let complete := c0 = 0 ∧ c1 = 0 ∧ (nb = some true → g0 ≠ -1 ∧ g1 ≠ -1 ∧ s0 = 0 ∧ s1 = 0)
    let res := new_lua K os (nb.map LuaValue.boolean).toList w
    (complete →
      res.1 = Outcome.values [LuaValue.udata (some PIPE_READER_MT) (some ⟨a⟩),
        LuaValue.udata (some PIPE_WRITER_MT) (some ⟨b⟩)] ∧
      res.2.trace = (if nb = some true then t7 else t3) ∧
      closes res.2.trace = closes w.trace) ∧
    (¬ complete →
      ∃ t ca cb e,
        res.2.trace = t ++ [⟨Syscall.close a, ca⟩, ⟨Syscall.close b, cb⟩] ∧
        closes t = closes w.trace ∧
        res.1 = Outcome.values [LuaValue.nil, LuaValue.nil, LuaValue.errobj e "pipe"]) := by
  intro a b t1 c0 t2 c1 t3 g0 t4 g1 t5 s0 t6 s1 t7 complete res
  have hopt : lauxh_optboolean (nb.map LuaValue.boolean).toList 0 =
      some (if nb = some true then (1 : Int) else 0) := by
    rcases nb with _ | _ | _ <;> simp [lauxh_optboolean]
  have hwp : ∃ wp : World, wp = (syscall os (lua_newuserdata (lua_newuserdata w
      sizeof_pipe_fd_t) sizeof_pipe_fd_t) Syscall.pipe).2 := ⟨_, rfl⟩
  obtain ⟨wp, hwp⟩ := hwp
  have htp : wp.trace = t1 := by
    rw [hwp]
    simp only [syscall, lua_newuserdata, hpipe, t1]
  have hunf : res = (if (set_cloexec K os a b wp).1 = 0 then
        if (if nb = some true then (1 : Int) else 0) = 0 then
          new_lua_pair a b (set_cloexec K os a b wp).2
        else if (set_nonblock K os a b (set_cloexec K os a b wp).2).1 = 0 then
          new_lua_pair a b (set_nonblock K os a b (set_cloexec K os a b wp).2).2
        else new_lua_cleanup os a b (set_nonblock K os a b (set_cloexec K os a b wp).2).2
      else new_lua_cleanup os a b (set_cloexec K os a b wp).2) := by
    have hp : (syscall os (lua_newuserdata (lua_newuserdata w sizeof_pipe_fd_t)
        sizeof_pipe_fd_t) Syscall.pipe).1.rv = 0 := hpipe
    show new_lua K os (nb.map LuaValue.boolean).toList w = _
    simp only [new_lua, hopt]
    rw [if_pos hp, hwp]
    rfl
  have hclean : ∀ w1 : World, ∃ ca cb e,
      (new_lua_cleanup os a b w1).2.trace =
        w1.trace ++ [⟨Syscall.close a, ca⟩, ⟨Syscall.close b, cb⟩] ∧
      (new_lua_cleanup os a b w1).1 =
        Outcome.values [LuaValue.nil, LuaValue.nil, LuaValue.errobj e "pipe"] := by
    intro w1
    refine ⟨(os w1.trace (Syscall.close a)).rv,
      (os (w1.trace ++ [⟨Syscall.close a, (os w1.trace (Syscall.close a)).rv⟩])
        (Syscall.close b)).rv, (new_lua_cleanup os a b w1).2.errno, ?_, rfl⟩
    simp [new_lua_cleanup, new_lua_error, syscall]
  have hcl1 : closes t1 = closes w.trace := by simp [t1, closes_append, closes]
  obtain ⟨hc_iff, hc_tr, hc_cl⟩ := set_cloexec_spec K os a b wp
  obtain ⟨hn_iff, hn_tr, hn_cl⟩ := set_nonblock_spec K os a b (set_cloexec K os a b wp).2
  rw [htp] at hc_iff hc_tr hc_cl
  rw [hcl1] at hc_cl
  rw [hc_cl] at hn_cl
  constructor
  · intro hcomp
    have h1 : (set_cloexec K os a b wp).1 = 0 := hc_iff.mpr ⟨hcomp.1, hcomp.2.1⟩
    rw [hc_tr h1] at hn_iff hn_tr
    rw [hunf, if_pos h1]
    by_cases hnb : nb = some true
    · have h2 : (set_nonblock K os a b (set_cloexec K os a b wp).2).1 = 0 :=
        hn_iff.mpr (hcomp.2.2 hnb)
      have hs0 : s0 = 0 := (hcomp.2.2 hnb).2.2.1
      have hs1 : s1 = 0 := (hcomp.2.2 hnb).2.2.2
      rw [if_neg (by simp [hnb]), if_pos h2, if_pos hnb]
      refine ⟨rfl, ?_, ?_⟩
      · show (set_nonblock K os a b (set_cloexec K os a b wp).2).2.trace = t7
        rw [hn_tr h2]
        show _ = t5 ++ [⟨_, s0⟩] ++ [⟨_, s1⟩]
        rw [hs0, hs1]
      · exact hn_cl
    · rw [if_pos (by simp [hnb]), if_neg hnb]
      exact ⟨rfl, hc_tr h1, hc_cl⟩
  · intro hcomp
    by_cases h1 : (set_cloexec K os a b wp).1 = 0
    · rw [hc_tr h1] at hn_iff hn_tr
      have hc := hc_iff.mp h1
      by_cases hnb : nb = some true
      · have h2 : ¬ (set_nonblock K os a b (set_cloexec K os a b wp).2).1 = 0 := by
          intro h2
          exact hcomp ⟨hc.1, hc.2, fun _ => hn_iff.mp h2⟩
        rw [hunf, if_pos h1, if_neg (by simp [hnb]), if_neg h2]
        obtain ⟨ca, cb, e, htr, hout⟩ :=
          hclean (set_nonblock K os a b (set_cloexec K os a b wp).2).2
        exact ⟨_, ca, cb, e, htr, hn_cl, hout⟩
      · exact absurd ⟨hc.1, hc.2, fun h => absurd h hnb⟩ hcomp
    · rw [hunf, if_neg h1]
      obtain ⟨ca, cb, e, htr, hout⟩ := hclean (set_cloexec K os a b wp).2
      exact ⟨_, ca, cb, e, htr, hc_cl, hout⟩

/-- When `pipe` itself fails, `new_lua` issues no other call and returns the
error triple built from the `errno` left by `pipe`. -/
theorem new_lua_pipe_failed (K : Consts) (os : Kernel) (nb : Option Bool) (w : World)
    (hpipe : (os w.trace Syscall.pipe).rv ≠ 0) :
    (new_lua K os (nb.map LuaValue.boolean).toList w).1 =
      Outcome.values [LuaValue.nil, LuaValue.nil,
        LuaValue.errobj ((os w.trace Syscall.pipe).err.getD w.errno) "pipe"] ∧
    (new_lua K os (nb.map LuaValue.boolean).toList w).2.trace =
      w.trace ++ [⟨Syscall.pipe, (os w.trace Syscall.pipe).rv⟩] := by
  have hopt : lauxh_optboolean (nb.map LuaValue.boolean).toList 0 =
      some (if nb = some true then (1 : Int) else 0) := by
    rcases nb with _ | _ | _ <;> simp [lauxh_optboolean]
  have hp : ¬ (syscall os (lua_newuserdata (lua_newuserdata w sizeof_pipe_fd_t)
      sizeof_pipe_fd_t) Syscall.pipe).1.rv = 0 := hpipe
  simp only [new_lua, hopt]
  rw [if_neg hp]
  exact ⟨rfl, rfl⟩

/-- C5: `new_lua` with the non-blocking argument absent, `true` or `false`;
`pipe` stores descriptors `a`, `b`. Call the set-up complete when both
`F_SETFD FD_CLOEXEC` calls returned 0 and, if non-blocking was requested,
both `F_GETFL` calls returned a flag word other than `-1` and both `F_SETFL`
calls (with that word or-ed with O_NONBLOCK) returned 0. Whenever a pair is
returned, `pipe` returned 0, the set-up is complete, the pair is (reader on
`a`, writer on `b`), and the system calls issued are exactly the `pipe`, the
two `F_SETFD` and, on request, the two `F_GETFL` and two `F_SETFL`. When
`pipe` returned 0 and the set-up is complete the pair is returned. When
`pipe` returned 0 and the set-up is not complete, the last two system calls
are `close(a)` and `close(b)`, nothing else was closed, and the result is
`(nil, nil, error)` with operation name `"pipe"`. When `pipe` failed the
result is that same triple and no other call is issued. -/
theorem new_lua_all_or_nothing (K : Consts) (os : Kernel) (nb : Option Bool) (w : World) :
    let a := (os w.trace Syscall.pipe).fd0
    let b := (os w.trace Syscall.pipe).fd1
    let t1 := w.trace ++ [⟨Syscall.pipe, 0⟩]
    let c0 := (os t1 (Syscall.fcntl a FcntlCmd.F_SETFD K.FD_CLOEXEC)).rv
    let t2 := t1 ++ [⟨Syscall.fcntl a FcntlCmd.F_SETFD K.FD_CLOEXEC, c0⟩]
    let c1 := (os t2 (Syscall.fcntl b FcntlCmd.F_SETFD K.FD_CLOEXEC)).rv
    let t3 := t2 ++ [⟨Syscall.fcntl b FcntlCmd.F_SETFD K.FD_CLOEXEC, c1⟩]
    let g0 := (os t3 (Syscall.fcntl a FcntlCmd.F_GETFL 0)).rv
    let t4 := t3 ++ [⟨Syscall.fcntl a FcntlCmd.F_GETFL 0, g0⟩]
    let g1 := (os t4 (Syscall.fcntl b FcntlCmd.F_GETFL 0)).rv
    let t5 := t4 ++ [⟨Syscall.fcntl b FcntlCmd.F_GETFL 0, g1⟩]
    let s0 := (os t5 (Syscall.fcntl a FcntlCmd.F_SETFL (Int.lor g0 K.O_NONBLOCK))).rv
    let t6 := t5 ++ [⟨Syscall.fcntl a FcntlCmd.F_SETFL (Int.lor g0 K.O_NONBLOCK), s0⟩]
    let s1 := (os t6 (Syscall.fcntl b FcntlCmd.F_SETFL (Int.lor g1 K.O_NONBLOCK))).rv
    let t7 := t6 ++ [⟨Syscall.fcntl b FcntlCmd.F_SETFL (Int.lor g1 K.O_NONBLOCK), s1⟩]
    let complete := c0 = 0 ∧ c1 = 0 ∧ (nb = some true → g0 ≠ -1 ∧ g1 ≠ -1 ∧ s0 = 0 ∧ s1 = 0)
    let res := new_lua K os (nb.map LuaValue.boolean).toList w
    (∀ r wr : LuaValue, res.1 = Outcome.values [r, wr] →
      (os w.trace Syscall.pipe).rv = 0 ∧ complete ∧
      r = LuaValue.udata (some PIPE_READER_MT) (some ⟨a⟩) ∧
      wr = LuaValue.udata (some PIPE_WRITER_MT) (some ⟨b⟩) ∧
      res.2.trace = (if nb = some true then t7 else t3)) ∧
    ((os w.trace Syscall.pipe).rv = 0 → complete →
      res.1 = Outcome.values [LuaValue.udata (some PIPE_READER_MT) (some ⟨a⟩),
        LuaValue.udata (some PIPE_WRITER_MT) (some ⟨b⟩)]) ∧
    ((os w.trace Syscall.pipe).rv = 0 → ¬ complete →
      ∃ t ca cb e,
        res.2.trace = t ++ [⟨Syscall.close a, ca⟩, ⟨Syscall.close b, cb⟩] ∧
        closes t = closes w.trace ∧
        res.1 = Outcome.values [LuaValue.nil, LuaValue.nil, LuaValue.errobj e "pipe"]) ∧
    ((os w.trace Syscall.pipe).rv ≠ 0 →
      res.1 = Outcome.values [LuaValue.nil, LuaValue.nil,
        LuaValue.errobj ((os w.trace Syscall.pipe).err.getD w.errno) "pipe"] ∧
      res.2.trace = w.trace ++ [⟨Syscall.pipe, (os w.trace Syscall.pipe).rv⟩]) := by
  intro a b t1 c0 t2 c1 t3 g0 t4 g1 t5 s0 t6 s1 t7 complete res
  refine ⟨fun r wr hpair => ?_, fun hp hc => ((new_lua_cases K os nb w hp).1 hc).1,
    fun hp hc => (new_lua_cases K os nb w hp).2 hc, fun hp => new_lua_pipe_failed K os nb w hp⟩
  have hinv := new_lua_pair_inv K os (nb.map LuaValue.boolean).toList w r wr hpair
  by_cases hp : (os w.trace Syscall.pipe).rv = 0
  · by_cases hc : complete
    · exact ⟨hp, hc, hinv.1, hinv.2.1, ((new_lua_cases K os nb w hp).1 hc).2.1⟩
    · obtain ⟨t, ca, cb, e, _, _, hout⟩ := (new_lua_cases K os nb w hp).2 hc
      rw [hout] at hpair
      simp at hpair
  · rw [(new_lua_pipe_failed K os nb w hp).1] at hpair
    simp at hpair

/-- Witness for C5: on a kernel where every call succeeds, a non-blocking
pipe is returned as the pair (reader on 3, writer on 4). -/
theorem new_lua_all_or_nothing_witness :
    (new_lua linux kernelOk [LuaValue.boolean true] world0).1 =
      Outcome.values [LuaValue.udata (some PIPE_READER_MT) (some ⟨3⟩),
        LuaValue.udata (some PIPE_WRITER_MT) (some ⟨4⟩)] :=
  (new_lua_all_or_nothing linux kernelOk (some true) world0).2.1 (by decide) (by decide)

/-- C9 (the code departs from it): non-blocking set-up fails in `F_SETFL`
with EINVAL (22); the cleanup `close` is then interrupted and stores EINTR
(4) in `errno`; the error returned carries 4, not the 22 of the call that
made `new_lua` fail. -/
theorem new_lua_errno_after_cleanup :
    (kernelCleanupFails [⟨Syscall.pipe, 0⟩, ⟨Syscall.fcntl 3 FcntlCmd.F_SETFD 1, 0⟩,
        ⟨Syscall.fcntl 4 FcntlCmd.F_SETFD 1, 0⟩, ⟨Syscall.fcntl 3 FcntlCmd.F_GETFL 0, 0⟩,
        ⟨Syscall.fcntl 4 FcntlCmd.F_GETFL 0, 0⟩]
      (Syscall.fcntl 3 FcntlCmd.F_SETFL 2048)).err = some 22 ∧
    (new_lua linux kernelCleanupFails [LuaValue.boolean true] world0).2.trace =
      [⟨Syscall.pipe, 0⟩, ⟨Syscall.fcntl 3 FcntlCmd.F_SETFD 1, 0⟩,
        ⟨Syscall.fcntl 4 FcntlCmd.F_SETFD 1, 0⟩, ⟨Syscall.fcntl 3 FcntlCmd.F_GETFL 0, 0⟩,
        ⟨Syscall.fcntl 4 FcntlCmd.F_GETFL 0, 0⟩, ⟨Syscall.fcntl 3 FcntlCmd.F_SETFL 2048, -1⟩,
        ⟨Syscall.close 3, -1⟩, ⟨Syscall.close 4, -1⟩] ∧
    (new_lua linux kernelCleanupFails [LuaValue.boolean true] world0).1 =
      Outcome.values [LuaValue.nil, LuaValue.nil, LuaValue.errobj 4 "pipe"] := by
  decide

/-! ## Exactly-once close -/

/-- The function `write_lua` leaves the endpoint as it is and closes nothing. -/
theorem write_lua_keeps (K : Consts) (os : Kernel) (self : LuaValue) (args : List LuaValue)
    (w : World) :
    (write_lua K os self args w).self = self ∧
    closes (write_lua K os self args w).w.trace = closes w.trace := by
  unfold write_lua
  split
  · exact ⟨rfl, rfl⟩
  · split
    · exact ⟨rfl, rfl⟩
    · dsimp only
      split_ifs <;>
        first
        | exact ⟨rfl, rfl⟩
        | exact ⟨rfl, closes_syscall _ _ _ (by intro fd h; cases h)⟩

/-- The function `read_lua` leaves the endpoint as it is and closes nothing. -/
theorem read_lua_keeps (K : Consts) (os : Kernel) (mem : Allocator) (self : LuaValue)
    (args : List LuaValue)
    (w : World) :
    (read_lua K os mem self args w).self = self ∧
    closes (read_lua K os mem self args w).w.trace = closes w.trace := by
  unfold read_lua
  split
  · exact ⟨rfl, rfl⟩
  · split
    · exact ⟨rfl, rfl⟩
    · dsimp only
      split_ifs <;>
        first
        | exact ⟨rfl, rfl⟩
        | exact ⟨rfl, closes_syscall _ _ _ (by intro fd h; cases h)⟩

/-- The function `nonblock_lua` leaves the endpoint as it is and closes
nothing. -/
theorem nonblock_lua_keeps (K : Consts) (os : Kernel) (self : LuaValue) (tname : String)
    (args : List LuaValue) (w : World) :
    (nonblock_lua K os self tname args w).self = self ∧
    closes (nonblock_lua K os self tname args w).w.trace = closes w.trace := by
  unfold nonblock_lua
  split
  · exact ⟨rfl, rfl⟩
  · split
    · exact ⟨rfl, rfl⟩
    · dsimp only
      split_ifs <;>
        first
        | exact ⟨rfl, closes_syscall _ _ _ (by intro fd h; cases h)⟩
        | exact ⟨rfl, (closes_syscall _ _ _ (by intro fd h; cases h)).trans
            (closes_syscall _ _ _ (by intro fd h; cases h))⟩

/-- The function `fd_lua` changes nothing. -/
theorem fd_lua_keeps (self : LuaValue) (tname : String) (w : World) :
    (fd_lua self tname w).self = self ∧ (fd_lua self tname w).w = w := by
  unfold fd_lua
  split <;> exact ⟨rfl, rfl⟩

/-- No method other than `close` changes the endpoint or closes anything. -/
theorem invoke_other (K : Consts) (os : Kernel) (mem : Allocator) (self : LuaValue) (c : Call)
    (w : World)
    (hc : c ≠ Call.close) :
    (invoke K os mem self c w).self = self ∧
    closes (invoke K os mem self c w).w.trace = closes w.trace := by
  unfold invoke
  split
  · split_ifs
    · cases c with
      | close => exact absurd rfl hc
      | nonblock args => exact nonblock_lua_keeps K os _ _ args w
      | fd => exact ⟨(fd_lua_keeps _ _ w).1, by rw [fd_reader_lua, (fd_lua_keeps _ _ w).2]⟩
      | read args => exact read_lua_keeps K os mem _ args w
      | write args => exact ⟨rfl, rfl⟩
    · cases c with
      | close => exact absurd rfl hc
      | nonblock args => exact nonblock_lua_keeps K os _ _ args w
      | fd => exact ⟨(fd_lua_keeps _ _ w).1, by rw [fd_writer_lua, (fd_lua_keeps _ _ w).2]⟩
      | read args => exact ⟨rfl, rfl⟩
      | write args => exact write_lua_keeps K os _ args w
    · exact ⟨rfl, rfl⟩
  · exact ⟨rfl, rfl⟩

/-- The method `close` on a live endpoint: the endpoint then holds `-1` and
its descriptor is the one descriptor closed. On an endpoint holding `-1`:
nothing changes. -/
theorem invoke_close (K : Consts) (os : Kernel) (mem : Allocator) (mt : String) (fd : Int)
    (w : World)
    (hmt : mt = PIPE_READER_MT ∨ mt = PIPE_WRITER_MT) :
    (fd ≠ -1 →
      (invoke K os mem (LuaValue.udata (some mt) (some ⟨fd⟩)) Call.close w).self =
        LuaValue.udata (some mt) (some ⟨-1⟩) ∧
      closes (invoke K os mem (LuaValue.udata (some mt) (some ⟨fd⟩)) Call.close w).w.trace =
        closes w.trace ++ [fd]) ∧
    (fd = -1 →
      (invoke K os mem (LuaValue.udata (some mt) (some ⟨fd⟩)) Call.close w).self =
        LuaValue.udata (some mt) (some ⟨fd⟩) ∧
      (invoke K os mem (LuaValue.udata (some mt) (some ⟨fd⟩)) Call.close w).w = w) := by
  have hne : PIPE_WRITER_MT ≠ PIPE_READER_MT := by decide
  rcases hmt with h | h <;> subst h <;>
    simp only [invoke, close_reader_lua, close_writer_lua, close_lua, luaL_checkudata, if_true,
      if_neg hne] <;>
    refine ⟨fun hfd => ?_, fun hfd => ?_⟩ <;>
    simp only [hfd, if_true, if_false] <;>
    first
    | exact ⟨rfl, rfl⟩
    | exact ⟨trivial, trivial⟩
    | (split_ifs <;> simp [syscall, closes_append, closes])

/-- Once the endpoint holds `-1`, no sequence of calls changes it or closes
anything. -/
theorem run_closed (K : Consts) (os : Kernel) (mem : Allocator) (mt : String)
    (hmt : mt = PIPE_READER_MT ∨ mt = PIPE_WRITER_MT) (cs : List Call) :
    ∀ w : World,
      (run K os mem (LuaValue.udata (some mt) (some ⟨-1⟩)) cs w).1 =
        LuaValue.udata (some mt) (some ⟨-1⟩) ∧
      closes (run K os mem (LuaValue.udata (some mt) (some ⟨-1⟩)) cs w).2.trace =
        closes w.trace := by
  induction cs with
  | nil => intro w; exact ⟨rfl, rfl⟩
  | cons c cs ih =>
    intro w
    by_cases hc : c = Call.close
    · subst hc
      have h := (invoke_close K os mem mt (-1) w hmt).2 rfl
      simp only [run]
      rw [h.1, h.2]
      exact ih w
    · have h := invoke_other K os mem (LuaValue.udata (some mt) (some ⟨-1⟩)) c w hc
      simp only [run]
      rw [h.1]
      exact ⟨(ih _).1, (ih _).2.trans h.2⟩

/-- A live endpoint stays as it is until the first `close`; from then on it
holds `-1` and its descriptor is the one descriptor closed. -/
theorem run_open (K : Consts) (os : Kernel) (mem : Allocator) (mt : String) (fd : Int)
    (hmt : mt = PIPE_READER_MT ∨ mt = PIPE_WRITER_MT) (hfd : fd ≠ -1) (cs : List Call) :
    ∀ w : World,
      (Call.close ∉ cs →
        (run K os mem (LuaValue.udata (some mt) (some ⟨fd⟩)) cs w).1 =
          LuaValue.udata (some mt) (some ⟨fd⟩) ∧
        closes (run K os mem (LuaValue.udata (some mt) (some ⟨fd⟩)) cs w).2.trace =
          closes w.trace) ∧
      (Call.close ∈ cs →
        (run K os mem (LuaValue.udata (some mt) (some ⟨fd⟩)) cs w).1 =
          LuaValue.udata (some mt) (some ⟨-1⟩) ∧
        closes (run K os mem (LuaValue.udata (some mt) (some ⟨fd⟩)) cs w).2.trace =
          closes w.trace ++ [fd]) := by
  induction cs with
  | nil =>
    intro w
    exact ⟨fun _ => ⟨rfl, rfl⟩, fun h => absurd h (List.not_mem_nil _)⟩
  | cons c cs ih =>
    intro w
    by_cases hc : c = Call.close
    · subst hc
      have h := (invoke_close K os mem mt fd w hmt).1 hfd
      refine ⟨fun hn => absurd (List.mem_cons_self _ _) hn, fun _ => ?_⟩
      simp only [run]
      rw [h.1]
      have hr := run_closed K os mem mt hmt cs
        (invoke K os mem (LuaValue.udata (some mt) (some ⟨fd⟩)) Call.close w).w
      exact ⟨hr.1, hr.2.trans h.2⟩
    · have h := invoke_other K os mem (LuaValue.udata (some mt) (some ⟨fd⟩)) c w hc
      simp only [run]
      rw [h.1]
      refine ⟨fun hn => ?_, fun hm => ?_⟩
      · have hn1 : Call.close ∉ cs := fun hm => hn (List.mem_cons_of_mem _ hm)
        exact ⟨((ih _).1 hn1).1, (((ih _).1) hn1).2.trans h.2⟩
      · have hm1 : Call.close ∈ cs := by
          rcases List.mem_cons.mp hm with h1 | h1
          · exact absurd h1.symm hc
          · exact h1
        refine ⟨((ih _).2 hm1).1, ?_⟩
        rw [((ih _).2 hm1).2, h.2]

/-- The life of a live endpoint closes its descriptor exactly once: if no
`close` was called the finalizer issues the one `close`, otherwise the
finalizer does nothing. -/
theorem lifecycle_open (K : Consts) (os : Kernel) (mem : Allocator) (mt : String) (fd : Int)
    (hmt : mt = PIPE_READER_MT ∨ mt = PIPE_WRITER_MT) (hfd : fd ≠ -1) (cs : List Call)
    (w : World) :
    closes (lifecycle K os mem (LuaValue.udata (some mt) (some ⟨fd⟩)) cs w).trace =
      closes w.trace ++ [fd] ∧
    (Call.close ∉ cs → ∃ rv,
      (lifecycle K os mem (LuaValue.udata (some mt) (some ⟨fd⟩)) cs w).trace =
        (run K os mem (LuaValue.udata (some mt) (some ⟨fd⟩)) cs w).2.trace ++
          [⟨Syscall.close fd, rv⟩]) ∧
    (Call.close ∈ cs →
      lifecycle K os mem (LuaValue.udata (some mt) (some ⟨fd⟩)) cs w =
        (run K os mem (LuaValue.udata (some mt) (some ⟨fd⟩)) cs w).2) := by
  have hrun := run_open K os mem mt fd hmt hfd cs w
  by_cases hc : Call.close ∈ cs
  · have h := hrun.2 hc
    have hl : lifecycle K os mem (LuaValue.udata (some mt) (some ⟨fd⟩)) cs w =
        (run K os mem (LuaValue.udata (some mt) (some ⟨fd⟩)) cs w).2 := by
      simp [lifecycle, h.1, gc_lua, results]
    exact ⟨by rw [hl, h.2], fun hn => absurd hc hn, fun _ => hl⟩
  · have h := hrun.1 hc
    have hl : (lifecycle K os mem (LuaValue.udata (some mt) (some ⟨fd⟩)) cs w).trace =
        (run K os mem (LuaValue.udata (some mt) (some ⟨fd⟩)) cs w).2.trace ++
          [⟨Syscall.close fd, (os (run K os mem (LuaValue.udata (some mt) (some ⟨fd⟩))
            cs w).2.trace (Syscall.close fd)).rv⟩] := by
      simp [lifecycle, h.1, gc_lua, hfd, syscall]
    refine ⟨?_, fun _ => ⟨_, hl⟩, fun hm => absurd hm hc⟩
    rw [hl, closes_append, h.2]
    simp [closes]

/-- C4: let `new_lua` return the pair `(r, wr)`, the kernel having stored
descriptors `a` and `b`, both other than `-1` (descriptors are not negative).
For each of the two endpoints and every finite sequence `cs` of `read`,
`write`, `nonblock`, `fd` and `close` method calls followed by one `gc_lua`:
from the call of `new_lua` to the end, `close` is issued exactly once, on
the endpoint's descriptor, and on no other number; the finalizer issues
that `close` when `cs` has no `close` call and issues nothing when it has
one; and no method other than `close` changes the endpoint. -/
theorem close_exactly_once (K : Consts) (os : Kernel) (mem : Allocator) (args : List LuaValue)
    (w : World)
    (r wr : LuaValue) (cs : List Call)
    (hnew : (new_lua K os args w).1 = Outcome.values [r, wr])
    (ha : (os w.trace Syscall.pipe).fd0 ≠ -1) (hb : (os w.trace Syscall.pipe).fd1 ≠ -1) :
    (closes (lifecycle K os mem r cs (new_lua K os args w).2).trace =
        closes w.trace ++ [(os w.trace Syscall.pipe).fd0] ∧
      (Call.close ∉ cs → ∃ rv, (lifecycle K os mem r cs (new_lua K os args w).2).trace =
        (run K os mem r cs (new_lua K os args w).2).2.trace ++
          [⟨Syscall.close (os w.trace Syscall.pipe).fd0, rv⟩]) ∧
      (Call.close ∈ cs → lifecycle K os mem r cs (new_lua K os args w).2 =
        (run K os mem r cs (new_lua K os args w).2).2)) ∧
    (closes (lifecycle K os mem wr cs (new_lua K os args w).2).trace =
        closes w.trace ++ [(os w.trace Syscall.pipe).fd1] ∧
      (Call.close ∉ cs → ∃ rv, (lifecycle K os mem wr cs (new_lua K os args w).2).trace =
        (run K os mem wr cs (new_lua K os args w).2).2.trace ++
          [⟨Syscall.close (os w.trace Syscall.pipe).fd1, rv⟩]) ∧
      (Call.close ∈ cs → lifecycle K os mem wr cs (new_lua K os args w).2 =
        (run K os mem wr cs (new_lua K os args w).2).2)) ∧
    (∀ (self : LuaValue) (c : Call) (w1 : World), c ≠ Call.close →
      (invoke K os mem self c w1).self = self) := by
  obtain ⟨hr, hwr, hcl⟩ := new_lua_pair_inv K os args w r wr hnew
  subst hr hwr
  have h1 := lifecycle_open K os mem PIPE_READER_MT _ (Or.inl rfl) ha cs (new_lua K os args w).2
  have h2 := lifecycle_open K os mem PIPE_WRITER_MT _ (Or.inr rfl) hb cs (new_lua K os args w).2
  rw [hcl] at h1 h2
  exact ⟨h1, h2, fun self c w1 hc => (invoke_other K os mem self c w1 hc).1⟩

/-- Witness for C4: on a kernel where every call succeeds, a writer that is
written to, closed twice and then finalized has its descriptor 4 closed
once; a reader that is only read from is closed by the finalizer. -/
theorem close_exactly_once_witness :
    closes (lifecycle linux kernelOk hostMem writer4
      [Call.write [LuaValue.lstring [104, 105]], Call.close, Call.fd, Call.close]
      (new_lua linux kernelOk [] world0).2).trace = [4] ∧
    closes (lifecycle linux kernelOk hostMem reader3
      [Call.write [LuaValue.lstring [104, 105]], Call.close, Call.fd, Call.close]
      (new_lua linux kernelOk [] world0).2).trace = [3] :=
  ⟨(close_exactly_once linux kernelOk hostMem [] world0 reader3 writer4
      [Call.write [LuaValue.lstring [104, 105]], Call.close, Call.fd, Call.close]
      (by decide) (by decide) (by decide)).2.1.1,
   (close_exactly_once linux kernelOk hostMem [] world0 reader3 writer4
      [Call.write [LuaValue.lstring [104, 105]], Call.close, Call.fd, Call.close]
      (by decide) (by decide) (by decide)).1.1⟩

/-! ## Round trip -/

/-- A `write_lua` whose `write` does not return `-1`: the count is returned,
with the incomplete signal exactly when it differs from the length. -/
theorem write_lua_count (K : Consts) (os : Kernel) (p : pipe_fd_t) (d : List UInt8) (w : World)
    (hd : d ≠ []) (hrv : (os w.trace (Syscall.write p.fd d d.length)).rv ≠ -1) :
    write_lua K os (LuaValue.udata (some PIPE_WRITER_MT) (some p)) [LuaValue.lstring d] w =
      ⟨if (((d.length : Int) % 2 ^ 64) -
            ((os w.trace (Syscall.write p.fd d d.length)).rv % 2 ^ 64)) % 2 ^ 64 ≠ 0 then
          Outcome.values [LuaValue.integer (os w.trace (Syscall.write p.fd d d.length)).rv,
            LuaValue.nil, LuaValue.boolean true]
        else Outcome.values [LuaValue.integer (os w.trace (Syscall.write p.fd d d.length)).rv],
        LuaValue.udata (some PIPE_WRITER_MT) (some p),
        (syscall os w (Syscall.write p.fd d d.length)).2⟩ := by
  have hl : d.length ≠ 0 := fun h => hd (List.length_eq_zero.mp h)
  simp only [write_lua, luaL_checkudata, lauxh_checklstring, List.head?, if_true, hl, if_false,
    syscall]
  rw [if_neg hrv]
  split_ifs <;> rfl

/-- A `read_lua` whose buffer can be allocated and whose `read` returns a
positive count: the first that many bytes of the buffer are returned. -/
theorem read_lua_data (K : Consts) (os : Kernel) (mem : Allocator) (p : pipe_fd_t)
    (len : Int) (w : World) (hlen : 0 < len) (hmem : mem w.allocs len = true)
    (hrv : 0 < (os w.trace (Syscall.read p.fd len)).rv) :
    read_lua K os mem (LuaValue.udata (some PIPE_READER_MT) (some p)) [LuaValue.integer len] w =
      ⟨Outcome.values [LuaValue.lstring ((os w.trace (Syscall.read p.fd len)).buf.take
          (os w.trace (Syscall.read p.fd len)).rv.toNat)],
        LuaValue.udata (some PIPE_READER_MT) (some p),
        (syscall os (lua_newuserdata w len) (Syscall.read p.fd len)).2⟩ := by
  have hnl : ¬ len ≤ 0 := not_le.mpr hlen
  have hm1 : ¬ mem w.allocs len = false := by simp [hmem]
  simp only [read_lua, luaL_checkudata, lauxh_optinteger, List.head?, if_true, hnl, if_false]
  rw [if_neg hm1]
  have h0 : ¬ (syscall os (lua_newuserdata w len) (Syscall.read p.fd len)).1.rv = 0 := by
    intro h
    have h2 : (os w.trace (Syscall.read p.fd len)).rv = 0 := h
    omega
  have h1 : ¬ (syscall os (lua_newuserdata w len) (Syscall.read p.fd len)).1.rv = -1 := by
    intro h
    have h2 : (os w.trace (Syscall.read p.fd len)).rv = -1 := h
    omega
  rw [if_neg h0, if_neg h1]
  rfl

/-- When the host can allocate each buffer and the kernel serves the reads
from the queue `q`, the reads return the consecutive pieces of `q`. -/
theorem reads_pieces (K : Consts) (os : Kernel) (mem : Allocator) (a : Int) (lens : List Int) :
    ∀ (q : List UInt8) (w : World), allocates mem w.allocs lens →
      delivers os a w.trace q lens →
      (reads K os mem (LuaValue.udata (some PIPE_READER_MT) (some ⟨a⟩)) lens w).1 =
        (pieces q lens).map (fun s => Outcome.values [LuaValue.lstring s]) := by
  induction lens with
  | nil => intro q w _ _; rfl
  | cons len lens ih =>
    intro q w hal h
    obtain ⟨hmem, halrest⟩ := hal
    obtain ⟨hlen, hq, hrv, hbuf, hrest⟩ := h
    have hqpos : 0 < q.length := List.length_pos.mpr hq
    have hpos : 0 < (os w.trace (Syscall.read a len)).rv := by
      rw [hrv]; omega
    have hread := read_lua_data K os mem ⟨a⟩ len w hlen hmem hpos
    have htn : (os w.trace (Syscall.read a len)).rv.toNat = min len.toNat q.length := by
      rw [hrv]; exact Int.toNat_ofNat _
    simp only [reads, pieces, List.map_cons]
    rw [hread]
    simp only [htn, hbuf]
    congr 1
    exact ih (q.drop len.toNat) _ halrest hrest

/-- The pieces of `q`, put together, are the first bytes of `q`, as many as
the lengths add up to. -/
theorem pieces_flatten (lens : List Int) :
    ∀ q : List UInt8, (pieces q lens).flatten = q.take (lens.map Int.toNat).sum := by
  induction lens with
  | nil => intro q; simp [pieces]
  | cons len lens ih =>
    intro q
    simp only [pieces, List.flatten_cons, List.map_cons, List.sum_cons, ih, List.take_add]

/-- On the 65536-byte pipe a longer string is not taken whole: the write
returns 65536 with the incomplete signal, and a read of at least the
string's length, with a buffer the host can allocate, returns something
other than the string. -/
theorem kernelPipe_short (K : Consts) (d : List UInt8) (m : Int) (hlen : 65536 < d.length)
    (hsz : (d.length : Int) < 2 ^ 64) (hm : (d.length : Int) ≤ m) (hfit : m ≤ 2 ^ 30) :
    (write_lua K kernelPipe writer4 [LuaValue.lstring d] world0).out =
      Outcome.values [LuaValue.integer 65536, LuaValue.nil, LuaValue.boolean true] ∧
    (read_lua K kernelPipe hostMem reader3 [LuaValue.integer m]
      (write_lua K kernelPipe writer4 [LuaValue.lstring d] world0).w).out ≠
      Outcome.values [LuaValue.lstring d] := by
  have hd : d ≠ [] := by
    intro h
    rw [h] at hlen
    simp at hlen
  have hk : kernelPipe [] (Syscall.write 4 d d.length) = ⟨65536, none, [], 0, 0⟩ := by
    have hmin : min d.length 65536 = 65536 := Nat.min_eq_right (le_of_lt hlen)
    simp [kernelPipe, queued, hmin]
  have hk1 : kernelPipe world0.trace (Syscall.write (pipe_fd_t.mk 4).fd d d.length) =
      ⟨65536, none, [], 0, 0⟩ := hk
  have hw := write_lua_count K kernelPipe ⟨4⟩ d world0 hd (by rw [hk1]; decide)
  have hcond : (((d.length : Int) % 2 ^ 64) - ((65536 : Int) % 2 ^ 64)) % 2 ^ 64 ≠ 0 := by
    have h1 : (65536 : Int) < d.length := by exact_mod_cast hlen
    have e1 : (d.length : Int) % 2 ^ 64 = d.length := Int.emod_eq_of_lt (by omega) hsz
    have e2 : (65536 : Int) % 2 ^ 64 = 65536 := by norm_num
    have e3 : ((d.length : Int) - 65536) % 2 ^ 64 = d.length - 65536 :=
      Int.emod_eq_of_lt (by omega) (by omega)
    rw [e1, e2, e3]
    omega
  rw [hk1] at hw
  rw [if_pos hcond] at hw
  have hw2 : write_lua K kernelPipe writer4 [LuaValue.lstring d] world0 =
      ⟨Outcome.values [LuaValue.integer 65536, LuaValue.nil, LuaValue.boolean true], writer4,
        ⟨0, [⟨Syscall.write 4 d d.length, 65536⟩], []⟩⟩ := by
    rw [show writer4 = LuaValue.udata (some PIPE_WRITER_MT) (some ⟨4⟩) from rfl, hw]
    simp [syscall, hk, world0]
  rw [hw2]
  refine ⟨rfl, ?_⟩
  have hq : queued [⟨Syscall.write 4 d d.length, 65536⟩] = d.take 65536 := by
    simp [queued]
  have hqlen : (d.take 65536).length = 65536 := by
    rw [List.length_take]; omega
  have hqne : d.take 65536 ≠ [] := by
    intro h
    rw [h] at hqlen
    simp at hqlen
  have hmn : min m.toNat 65536 = 65536 := by omega
  have hkr : (kernelPipe [⟨Syscall.write 4 d d.length, 65536⟩] (Syscall.read 3 m)).rv = 65536 := by
    simp [kernelPipe, hq, hqne, hqlen, hmn]
  have hk2 : (kernelPipe [⟨Syscall.write 4 d d.length, 65536⟩]
      (Syscall.read 3 m)).rv.toNat = 65536 := by
    rw [hkr]; rfl
  have hr := read_lua_data K kernelPipe hostMem ⟨3⟩ m
    ⟨0, [⟨Syscall.write 4 d d.length, 65536⟩], []⟩ (by omega)
    (by simp only [hostMem]; exact decide_eq_true hfit) (by rw [hkr]; decide)
  rw [show reader3 = LuaValue.udata (some PIPE_READER_MT) (some ⟨3⟩) from rfl, hr]
  intro h
  simp only [Outcome.values.injEq, List.cons.injEq, LuaValue.lstring.injEq, and_true] at h
  have hlen2 := congrArg List.length h
  rw [List.length_take] at hlen2
  have hlen3 : min 65536 (kernelPipe [⟨Syscall.write 4 d d.length, 65536⟩]
      (Syscall.read 3 m)).buf.length = d.length := by
    rw [← hk2]; exact hlen2
  omega

/-- C8 as amended: when the kernel takes all of a non-empty `d` in the one
`write`, the host can allocate the buffer of each read, and the kernel
serves the reads from the queue in order, `write_lua` returns the length of
`d` alone, the successive reads return the consecutive pieces of `d`, the
pieces put together are the first bytes of `d` (all of `d` once the lengths
asked add up to its length), and a single read of at least the length of
`d` returns exactly `d`. -/
theorem round_trip (K : Consts) (os : Kernel) (mem : Allocator) (a b : Int) (d : List UInt8)
    (lens : List Int) (w : World) (hd : d ≠ [])
    (hw : (os w.trace (Syscall.write b d d.length)).rv = d.length)
    (hal : allocates mem w.allocs lens)
    (hdel : delivers os a (w.trace ++ [⟨Syscall.write b d d.length, d.length⟩]) d lens) :
    (write_lua K os (LuaValue.udata (some PIPE_WRITER_MT) (some ⟨b⟩))
      [LuaValue.lstring d] w).out = Outcome.values [LuaValue.integer d.length] ∧
    (reads K os mem (LuaValue.udata (some PIPE_READER_MT) (some ⟨a⟩)) lens
      (write_lua K os (LuaValue.udata (some PIPE_WRITER_MT) (some ⟨b⟩))
        [LuaValue.lstring d] w).w).1 =
      (pieces d lens).map (fun s => Outcome.values [LuaValue.lstring s]) ∧
    (pieces d lens).flatten = d.take (lens.map Int.toNat).sum ∧
    (d.length ≤ (lens.map Int.toNat).sum → (pieces d lens).flatten = d) ∧
    (∀ m : Int, lens = [m] → (d.length : Int) ≤ m →
      (reads K os mem (LuaValue.udata (some PIPE_READER_MT) (some ⟨a⟩)) lens
        (write_lua K os (LuaValue.udata (some PIPE_WRITER_MT) (some ⟨b⟩))
          [LuaValue.lstring d] w).w).1 = [Outcome.values [LuaValue.lstring d]]) := by
  have hrv : (os w.trace (Syscall.write b d d.length)).rv ≠ -1 := by
    rw [hw]; omega
  have hwl := write_lua_count K os ⟨b⟩ d w hd hrv
  have hzero : ¬ (((d.length : Int) % 2 ^ 64) - ((d.length : Int) % 2 ^ 64)) % 2 ^ 64 ≠ 0 := by
    simp
  rw [hw, if_neg hzero] at hwl
  have htr : (syscall os w (Syscall.write b d d.length)).2.trace =
      w.trace ++ [⟨Syscall.write b d d.length, d.length⟩] := by
    simp only [syscall, hw]
  have hreads := reads_pieces K os mem a lens d (syscall os w (Syscall.write b d d.length)).2
    hal (by rw [htr]; exact hdel)
  rw [hwl]
  refine ⟨rfl, hreads, pieces_flatten lens d, fun h => ?_, fun m hl hm => ?_⟩
  · rw [pieces_flatten, List.take_of_length_le h]
  · have h1 : d.length ≤ m.toNat := by omega
    rw [hreads, hl]
    simp [pieces, List.take_of_length_le h1]

/-- Witness for C8 as amended: ten bytes written to the 65536-byte pipe, then
`read(4)` returns the first four and `read(4096)` the remaining six. -/
theorem round_trip_witness :
    (reads linux kernelPipe hostMem reader3 [4, 4096]
      (write_lua linux kernelPipe writer4
        [LuaValue.lstring [0, 1, 2, 3, 4, 5, 6, 7, 8, 9]] world0).w).1 =
      [Outcome.values [LuaValue.lstring [0, 1, 2, 3]],
        Outcome.values [LuaValue.lstring [4, 5, 6, 7, 8, 9]]] :=
  (round_trip linux kernelPipe hostMem 3 4 [0, 1, 2, 3, 4, 5, 6, 7, 8, 9] [4, 4096] world0
    (by decide) (by decide) (by simp only [allocates]; decide)
    (by simp only [delivers]; decide)).2.1

/-- C8 as stated fails: 70000 bytes written to the 65536-byte pipe are not
taken whole (the write returns 65536 with the incomplete signal), and the
read of 70000 bytes that follows, whose buffer the host allocates, does not
return the string written. -/
theorem round_trip_large_write :
    (write_lua linux kernelPipe writer4 [LuaValue.lstring (List.replicate 70000 0)] world0).out =
      Outcome.values [LuaValue.integer 65536, LuaValue.nil, LuaValue.boolean true] ∧
    (read_lua linux kernelPipe hostMem reader3 [LuaValue.integer 70000]
      (write_lua linux kernelPipe writer4 [LuaValue.lstring (List.replicate 70000 0)]
        world0).w).out ≠ Outcome.values [LuaValue.lstring (List.replicate 70000 0)] :=
  kernelPipe_short linux (List.replicate 70000 0) 70000
    (by rw [List.length_replicate]; norm_num)
    (by rw [List.length_replicate]; norm_num)
    (by rw [List.length_replicate]; norm_num)
    (by norm_num)

end OsPipe
